import Mathlib

/-!
Verification of the quaternion-Julia-set raymarching shader (src/main.js).

The GLSL fragment-shader logic is shallowly embedded over the real numbers:
`vec3`/`vec4` become `Vec3`/`Vec4` (records of reals), the shader's uniforms
(`time`, `quaternionC`) become explicit parameters, and the fixed-count GLSL
`for` loops become fuel recursions with the same early-exit structure.
-/

noncomputable section

structure Vec3 where
  x : ℝ
  y : ℝ
  z : ℝ

structure Vec4 where
  x : ℝ
  y : ℝ
  z : ℝ
  w : ℝ

instance : Add Vec3 := ⟨fun a b => ⟨a.x + b.x, a.y + b.y, a.z + b.z⟩⟩

instance : Sub Vec3 := ⟨fun a b => ⟨a.x - b.x, a.y - b.y, a.z - b.z⟩⟩

instance : Neg Vec3 := ⟨fun a => ⟨-a.x, -a.y, -a.z⟩⟩

instance : Mul Vec3 := ⟨fun a b => ⟨a.x * b.x, a.y * b.y, a.z * b.z⟩⟩

instance : SMul ℝ Vec3 := ⟨fun s v => ⟨s * v.x, s * v.y, s * v.z⟩⟩

instance : Add Vec4 := ⟨fun a b => ⟨a.x + b.x, a.y + b.y, a.z + b.z, a.w + b.w⟩⟩

theorem Vec3.add_def (a b : Vec3) : a + b = ⟨a.x + b.x, a.y + b.y, a.z + b.z⟩ := rfl

theorem Vec3.sub_def (a b : Vec3) : a - b = ⟨a.x - b.x, a.y - b.y, a.z - b.z⟩ := rfl

theorem Vec3.neg_def (a : Vec3) : -a = ⟨-a.x, -a.y, -a.z⟩ := rfl

theorem Vec3.mul_def (a b : Vec3) : a * b = ⟨a.x * b.x, a.y * b.y, a.z * b.z⟩ := rfl

theorem Vec3.smul_def (s : ℝ) (v : Vec3) : s • v = ⟨s * v.x, s * v.y, s * v.z⟩ := rfl

theorem Vec4.add_mk (a b : Vec4) : a + b = ⟨a.x + b.x, a.y + b.y, a.z + b.z, a.w + b.w⟩ := rfl

@[simp] theorem Vec3.add_x (a b : Vec3) : (a + b).x = a.x + b.x := rfl

@[simp] theorem Vec3.add_y (a b : Vec3) : (a + b).y = a.y + b.y := rfl

@[simp] theorem Vec3.add_z (a b : Vec3) : (a + b).z = a.z + b.z := rfl

@[simp] theorem Vec3.smul_x (s : ℝ) (v : Vec3) : (s • v).x = s * v.x := rfl

@[simp] theorem Vec3.smul_y (s : ℝ) (v : Vec3) : (s • v).y = s * v.y := rfl

@[simp] theorem Vec3.smul_z (s : ℝ) (v : Vec3) : (s • v).z = s * v.z := rfl

/-- GLSL `dot` on `vec3`. -/
def dot3 (a b : Vec3) : ℝ := a.x * b.x + a.y * b.y + a.z * b.z

/-- GLSL `length` on `vec3`. -/
def length3 (v : Vec3) : ℝ := Real.sqrt (v.x * v.x + v.y * v.y + v.z * v.z)

/-- GLSL `length` on `vec4`. -/
def length4 (v : Vec4) : ℝ := Real.sqrt (v.x * v.x + v.y * v.y + v.z * v.z + v.w * v.w)

/-- GLSL `normalize` on `vec3`: the vector divided componentwise by its length. -/
def normalize3 (v : Vec3) : Vec3 := ⟨v.x / length3 v, v.y / length3 v, v.z / length3 v⟩

/-- GLSL `reflect(I, N) = I - 2*dot(N,I)*N`. -/
def reflect3 (i n : Vec3) : Vec3 := i - (2 * dot3 n i) • n

/-- `qmul` from the shader: the 4D quaternion product. -/
def qmul (a b : Vec4) : Vec4 :=
  ⟨a.x * b.x - a.y * b.y - a.z * b.z - a.w * b.w,
   a.x * b.y + a.y * b.x + a.z * b.w - a.w * b.z,
   a.x * b.z - a.y * b.w + a.z * b.x + a.w * b.y,
   a.x * b.w + a.y * b.z - a.z * b.y + a.w * b.x⟩

/-- The time-rotated constant `c` computed at the top of `DE`. -/
def rotConst (qC : Vec4) (time : ℝ) : Vec4 :=
  let t := time * 0.2
  ⟨qC.x * Real.cos t - qC.y * Real.sin t,
   qC.x * Real.sin t + qC.y * Real.cos t,
   qC.z * Real.cos (t * 0.7) - qC.w * Real.sin (t * 0.7),
   qC.z * Real.sin (t * 0.7) + qC.w * Real.cos (t * 0.7)⟩

/-- The iteration loop of `DE` (`ITERATIONS = 20`): carries `z`, `dr`, `r`,
breaks as soon as `r > 4.0`, and returns the final `(r, dr)`. -/
def deLoop (c : Vec4) : ℕ → Vec4 → ℝ → ℝ → ℝ × ℝ
  | 0, _z, dr, r => (r, dr)
  | n + 1, z, dr, _r =>
      let r := length4 z
      if 4 < r then (r, dr)
      else deLoop c n (qmul z z + c) (2 * r * dr + 1) r

/-- The distance estimator `DE` from the shader, with the uniforms `time` and
`quaternionC` as explicit parameters. -/
def DE (pos : Vec3) (time : ℝ) (qC : Vec4) : ℝ :=
  let z : Vec4 := ⟨pos.x, pos.y, pos.z, 0⟩
  let c := rotConst qC time
  let p := deLoop c 20 z 1 0
  0.5 * Real.log p.1 * p.1 / p.2

/-- The central-difference vector built inside `getNormal` (offset `MIN_DIST = 0.0001`). -/
def centralGrad (p : Vec3) (time : ℝ) (qC : Vec4) : Vec3 :=
  ⟨DE (p + ⟨0.0001, 0, 0⟩) time qC - DE (p - ⟨0.0001, 0, 0⟩) time qC,
   DE (p + ⟨0, 0.0001, 0⟩) time qC - DE (p - ⟨0, 0.0001, 0⟩) time qC,
   DE (p + ⟨0, 0, 0.0001⟩) time qC - DE (p - ⟨0, 0, 0.0001⟩) time qC⟩

/-- `getNormal` from the shader: normalize the central-difference gradient of `DE`. -/
def getNormal (p : Vec3) (time : ℝ) (qC : Vec4) : Vec3 :=
  normalize3 (centralGrad p time qC)

/-- The `for` loop of `rayMarch` (`MAX_STEPS = 512`), carrying the travel
distance `t` and the running minimum `minD`; after the loop (fuel exhausted or
`t > MAX_DIST` break) the shader returns `t` if `minD < 0.1` and `MAX_DIST`
otherwise. -/
def rayMarchLoop (time : ℝ) (qC : Vec4) (ro rd : Vec3) : ℕ → ℝ → ℝ → ℝ
  | 0, t, minD => if minD < 0.1 then t else 40
  | n + 1, t, minD =>
      let p := ro + t • rd
      let d := DE p time qC * 0.45
      let minD2 := min minD d
      if d < 0.0001 then t
      else if 40 < t then (if minD2 < 0.1 then t else 40)
      else rayMarchLoop time qC ro rd n (t + d) minD2

/-- `rayMarch` from the shader: `t` starts at `0`, `minD` starts at `MAX_DIST = 40`. -/
def rayMarch (ro rd : Vec3) (time : ℝ) (qC : Vec4) : ℝ :=
  rayMarchLoop time qC ro rd 512 0 40

/-- `palette` from the shader, with `a = b = (0.5,0.5,0.5)`, `c = (1,1,1)`,
`d = (0.263, 0.416, 0.557)`. -/
def palette (t : ℝ) (time : ℝ) : Vec3 :=
  ⟨0.5 + 0.5 * Real.cos (6.28318 * (1 * t + 0.263 + time * 0.1)),
   0.5 + 0.5 * Real.cos (6.28318 * (1 * t + 0.416 + time * 0.1)),
   0.5 + 0.5 * Real.cos (6.28318 * (1 * t + 0.557 + time * 0.1))⟩

/-- The fragment shader `main`, producing the RGBA `gl_FragColor`.  The
uniforms `time`, `resolution`, `quaternionC`, the built-in `cameraPosition`
and the varyings `vWorldPosition`, `vNormal` are explicit parameters
(`resolution` is declared by the shader but unused by `main`). -/
def fragMain (cameraPosition vWorldPosition vNormal : Vec3) (time : ℝ) (qC : Vec4)
    (_resolution : ℝ × ℝ) : Vec4 :=
  let rd0 := normalize3 (vWorldPosition - cameraPosition)
  let rd := normalize3 (rd0 + (0.01 : ℝ) • vNormal)
  let t := rayMarch cameraPosition rd time qC
  let col : Vec3 :=
    if t < 40 then
      let p := cameraPosition + t • rd
      let n := getNormal p time qC
      let light1 := normalize3 ⟨Real.sin time, 1, Real.cos time⟩
      let light2 := normalize3 ⟨-0.707, 0.707, 0⟩
      let diff1 := max (dot3 n light1) 0
      let diff2 := max (dot3 n light2) 0
      let spec1 := max (dot3 (reflect3 (-light1) n) (-rd)) 0 ^ (32 : ℕ)
      let spec2 := max (dot3 (reflect3 (-light2) n) (-rd)) 0 ^ (32 : ℕ)
      let baseColor := palette (length3 p * 0.5 + dot3 n ⟨1, 1, 1⟩ * 0.5) time
      let col0 := (0.2 + 0.4 * diff1 + 0.2 * diff2) • baseColor +
        (0.5 : ℝ) • ((spec1 + spec2) • (⟨0.8, 0.8, 0.8⟩ : Vec3))
      let glow := Real.exp (-length3 p * 1.5)
      col0 + (0.3 : ℝ) • (glow • baseColor)
    else ⟨0, 0, 0⟩
  ⟨col.x, col.y, col.z, 1⟩

/-! ## Spec-side definitions

These definitions follow the wording of the specification (for refinement
claims) and are compared with the source-translated definitions above. -/

/-- Modelled from the spec: a 2D rotation of `(x, y)` by angle `ang` using the
standard rotation matrix. -/
def rot2 (x y ang : ℝ) : ℝ × ℝ :=
  (x * Real.cos ang - y * Real.sin ang, x * Real.sin ang + y * Real.cos ang)

/-- Modelled from the spec: rotate `(cx, cy)` by `time*0.2` and `(cz, cw)` by
`time*0.2*0.7`. -/
def rotConstSpec (qC : Vec4) (time : ℝ) : Vec4 :=
  let p := rot2 qC.x qC.y (time * 0.2)
  let q := rot2 qC.z qC.w (time * 0.2 * 0.7)
  ⟨p.1, p.2, q.1, q.2⟩

/-- Modelled from the spec: the DE iteration carrying the state `(z, dr, r)`;
each iteration sets `r = |z|`, stops early if `r > 4`, otherwise updates
`dr` to `2*r*dr + 1` and `z` to `qmul(z,z) + c`. -/
def DESpecLoop (c : Vec4) : ℕ → Vec4 × ℝ × ℝ → Vec4 × ℝ × ℝ
  | 0, s => s
  | n + 1, s =>
      if 4 < length4 s.1 then (s.1, s.2.1, length4 s.1)
      else DESpecLoop c n (qmul s.1 s.1 + c, 2 * length4 s.1 * s.2.1 + 1, length4 s.1)

/-- Modelled from the spec: lift `pos` to `(pos, 0)`, rotate the constant,
iterate at most 20 times starting from `dr = 1`, return `0.5*ln(r)*r/dr`. -/
def DESpec (pos : Vec3) (time : ℝ) (qC : Vec4) : ℝ :=
  let z : Vec4 := ⟨pos.x, pos.y, pos.z, 0⟩
  let s := DESpecLoop (rotConstSpec qC time) 20 (z, 1, 0)
  0.5 * Real.log s.2.2 * s.2.2 / s.2.1

/-- Modelled from the spec: the minimum damped distance observed during the
march (the maximum distance 40 standing for "nothing observed yet"). -/
def observedMin (ds : List ℝ) : ℝ := ds.foldr min 40

/-- Modelled from the spec: the march loop, recording every observed damped
distance in a list; a hit returns `t` as soon as the damped distance falls
below `1e-4`; on budget exhaustion or `t` exceeding 40 it returns `t` if the
minimum observed damped distance was below `0.1` and the sentinel 40
otherwise. -/
def rayMarchSpecLoop (time : ℝ) (qC : Vec4) (ro rd : Vec3) : ℕ → ℝ → List ℝ → ℝ
  | 0, t, ds => if observedMin ds < 0.1 then t else 40
  | n + 1, t, ds =>
      let d := DE (ro + t • rd) time qC * 0.45
      if d < 0.0001 then t
      else if 40 < t then (if observedMin (ds ++ [d]) < 0.1 then t else 40)
      else rayMarchSpecLoop time qC ro rd n (t + d) (ds ++ [d])

/-- Modelled from the spec: sphere tracing over at most 512 steps starting
from `t = 0` with no observations yet. -/
def rayMarchSpec (ro rd : Vec3) (time : ℝ) (qC : Vec4) : ℝ :=
  rayMarchSpecLoop time qC ro rd 512 0 []

/-- `Vec4` seen as a Mathlib quaternion, first component real part. -/
def toQuat (v : Vec4) : Quaternion ℝ := ⟨v.x, v.y, v.z, v.w⟩

/-! ## Basic unfolding lemmas -/

theorem deLoop_succ (c z : Vec4) (dr r : ℝ) (n : ℕ) :
    deLoop c (n + 1) z dr r =
      (if 4 < length4 z then (length4 z, dr)
       else deLoop c n (qmul z z + c) (2 * length4 z * dr + 1) (length4 z)) := rfl

theorem rayMarchLoop_succ (time : ℝ) (qC : Vec4) (ro rd : Vec3) (n : ℕ) (t minD : ℝ) :
    rayMarchLoop time qC ro rd (n + 1) t minD =
      (if DE (ro + t • rd) time qC * 0.45 < 0.0001 then t
       else if 40 < t then
         (if min minD (DE (ro + t • rd) time qC * 0.45) < 0.1 then t else 40)
       else rayMarchLoop time qC ro rd n (t + DE (ro + t • rd) time qC * 0.45)
         (min minD (DE (ro + t • rd) time qC * 0.45))) := rfl

theorem rotConst_zero (time : ℝ) : rotConst ⟨0, 0, 0, 0⟩ time = ⟨0, 0, 0, 0⟩ := by
  simp [rotConst]

/-! ## C3 / C8: quaternion multiplication -/

/-- C3: `qmul` is exactly the componentwise Hamilton product (and agrees with
Mathlib's quaternion multiplication); being a pure function of its arguments
it has no side effects. -/
theorem qmul_hamilton_product (a b : Vec4) :
    qmul a b =
      ⟨a.x * b.x - a.y * b.y - a.z * b.z - a.w * b.w,
       a.x * b.y + a.y * b.x + a.z * b.w - a.w * b.z,
       a.x * b.z - a.y * b.w + a.z * b.x + a.w * b.y,
       a.x * b.w + a.y * b.z - a.z * b.y + a.w * b.x⟩ ∧
    toQuat (qmul a b) = toQuat a * toQuat b := by
  refine ⟨rfl, ?_⟩
  ext <;>
    simp [toQuat, qmul, Quaternion.mul_re, Quaternion.mul_imI, Quaternion.mul_imJ,
      Quaternion.mul_imK]

/-- C8: `(1,0,0,0)` is a right identity for `qmul`, the sample product
`i * j`-style equation holds, and `qmul` is not commutative. -/
theorem qmul_identity_and_noncomm :
    (∀ q : Vec4, qmul q ⟨1, 0, 0, 0⟩ = q) ∧
    qmul ⟨1, 0, 0, 0⟩ ⟨0, 1, 0, 0⟩ = ⟨0, 1, 0, 0⟩ ∧
    ∃ a b : Vec4, qmul a b ≠ qmul b a := by
  refine ⟨fun q => ?_, ?_, ⟨0, 1, 0, 0⟩, ⟨0, 0, 1, 0⟩, ?_⟩
  · obtain ⟨x, y, z, w⟩ := q
    simp only [qmul, Vec4.mk.injEq]
    refine ⟨by ring, by ring, by ring, by ring⟩
  · simp only [qmul, Vec4.mk.injEq]
    norm_num
  · simp only [qmul, Vec4.mk.injEq]
    norm_num

/-! ## C10: palette bounds -/

theorem half_cos_bounds (a : ℝ) : 0 ≤ 0.5 + 0.5 * Real.cos a ∧ 0.5 + 0.5 * Real.cos a ≤ 1 := by
  have h1 := Real.neg_one_le_cos a
  have h2 := Real.cos_le_one a
  constructor <;> nlinarith

/-- C10: every component of the palette (hence of the base color used by the
shading combination) lies in `[0, 1]`. -/
theorem palette_components_bounded (t time : ℝ) :
    (0 ≤ (palette t time).x ∧ (palette t time).x ≤ 1) ∧
    (0 ≤ (palette t time).y ∧ (palette t time).y ≤ 1) ∧
    (0 ≤ (palette t time).z ∧ (palette t time).z ≤ 1) :=
  ⟨half_cos_bounds _, half_cos_bounds _, half_cos_bounds _⟩

/-! ## C9: per-pixel determinism -/

/-- C9: the fragment computation is a pure function of `(time, resolution,
quaternionC, camera position, interpolated position, interpolated normal)`:
identical inputs give identical output colors. -/
theorem fragMain_deterministic (c1 w1 n1 : Vec3) (t1 : ℝ) (q1 : Vec4) (r1 : ℝ × ℝ)
    (c2 w2 n2 : Vec3) (t2 : ℝ) (q2 : Vec4) (r2 : ℝ × ℝ)
    (hc : c1 = c2) (hw : w1 = w2) (hn : n1 = n2) (ht : t1 = t2) (hq : q1 = q2)
    (hr : r1 = r2) :
    fragMain c1 w1 n1 t1 q1 r1 = fragMain c2 w2 n2 t2 q2 r2 := by
  subst hc; subst hw; subst hn; subst ht; subst hq; subst hr; rfl

theorem fragMain_deterministic_witness :
    fragMain ⟨1, 1, 1⟩ ⟨3, 0, 0⟩ ⟨1, 0, 0⟩ 0 ⟨-0.2, 0.4, -0.4, -0.4⟩ (800, 600) =
      fragMain ⟨1, 1, 1⟩ ⟨3, 0, 0⟩ ⟨1, 0, 0⟩ 0 ⟨-0.2, 0.4, -0.4, -0.4⟩ (800, 600) :=
  fragMain_deterministic _ _ _ _ _ _ _ _ _ _ _ _ rfl rfl rfl rfl rfl rfl

/-! ## C5: the DE evaluation at the golden input reaches log 0 -/

theorem qmul_zero : qmul ⟨0, 0, 0, 0⟩ ⟨0, 0, 0, 0⟩ = ⟨0, 0, 0, 0⟩ := by
  simp [qmul]

theorem length4_zero : length4 ⟨0, 0, 0, 0⟩ = 0 := by
  simp [length4]

theorem deLoop_zero_state (n : ℕ) :
    deLoop ⟨0, 0, 0, 0⟩ n ⟨0, 0, 0, 0⟩ 1 0 = (0, 1) := by
  induction n with
  | zero => rfl
  | succ n ih =>
      rw [deLoop_succ, length4_zero]
      norm_num [qmul_zero, Vec4.add_mk, ih]

/-- C5: evaluating `DE` at the claim's golden input — the origin with
constant `(0,0,0,0)` and time `0` — keeps the orbit at the origin through
all 20 iterations (final `r = 0`, `dr = 1`), so the value the source
returns is the expression `0.5 * log 0 * 0 / 1`: the shader applies `log`
to `0`, which GLSL leaves undefined (IEEE floats give `-inf` and then
`NaN`), so the program produces no finite deterministic golden value at
this input.  The real-valued embedding totalizes `log` (`Real.log 0 = 0`),
which is the only reason the expression has a value here at all. -/
theorem DE_golden_input_log_zero :
    deLoop (rotConst ⟨0, 0, 0, 0⟩ 0) 20 ⟨0, 0, 0, 0⟩ 1 0 = (0, 1) ∧
    DE ⟨0, 0, 0⟩ 0 ⟨0, 0, 0, 0⟩ = 0.5 * Real.log 0 * 0 / 1 := by
  constructor
  · rw [rotConst_zero]
    exact deLoop_zero_state 20
  · show 0.5 * Real.log (deLoop (rotConst ⟨0, 0, 0, 0⟩ 0) 20 ⟨0, 0, 0, 0⟩ 1 0).1 *
        (deLoop (rotConst ⟨0, 0, 0, 0⟩ 0) 20 ⟨0, 0, 0, 0⟩ 1 0).1 /
        (deLoop (rotConst ⟨0, 0, 0, 0⟩ 0) 20 ⟨0, 0, 0, 0⟩ 1 0).2 =
      0.5 * Real.log 0 * 0 / 1
    rw [rotConst_zero, deLoop_zero_state]

/-! ## C2: DE agrees with its spec description -/

theorem deLoop_eq_DESpecLoop (c : Vec4) (n : ℕ) :
    ∀ (z : Vec4) (dr r : ℝ),
      deLoop c n z dr r =
        ((DESpecLoop c n (z, dr, r)).2.2, (DESpecLoop c n (z, dr, r)).2.1) := by
  induction n with
  | zero => intro z dr r; rfl
  | succ n ih =>
      intro z dr r
      rw [deLoop_succ]
      show _ = ((if 4 < length4 z then _ else _ : Vec4 × ℝ × ℝ).2.2, _)
      by_cases h : 4 < length4 z
      · simp [DESpecLoop, h]
      · simp only [DESpecLoop, h, if_false, if_neg h]
        exact ih _ _ _

theorem rotConst_eq_spec (qC : Vec4) (time : ℝ) : rotConst qC time = rotConstSpec qC time := rfl

/-- C2: `DE` performs exactly the computation the spec describes: lift to a
quaternion with fourth component 0, rotate `(cx,cy)` by `time*0.2` and
`(cz,cw)` by `time*0.2*0.7` with standard rotation matrices, iterate
`z ↦ qmul(z,z) + c` at most 20 times with `r = |z|`, early escape at
`r > 4`, `dr` starting at 1 and updated to `2*r*dr + 1`, and finally return
`0.5 * ln(r) * r / dr`. -/
theorem DE_spec_correct (pos : Vec3) (time : ℝ) (qC : Vec4) :
    DE pos time qC = DESpec pos time qC := by
  show 0.5 * Real.log (deLoop (rotConst qC time) 20 ⟨pos.x, pos.y, pos.z, 0⟩ 1 0).1 *
      (deLoop (rotConst qC time) 20 ⟨pos.x, pos.y, pos.z, 0⟩ 1 0).1 /
      (deLoop (rotConst qC time) 20 ⟨pos.x, pos.y, pos.z, 0⟩ 1 0).2 = _
  rw [deLoop_eq_DESpecLoop, rotConst_eq_spec]
  rfl

/-! ## C1: rayMarch agrees with its spec description -/

theorem observedMin_append (ds : List ℝ) (d : ℝ) :
    observedMin (ds ++ [d]) = min (observedMin ds) d := by
  induction ds with
  | nil => simp [observedMin, min_comm]
  | cons a ds ih =>
      simp only [observedMin, List.cons_append, List.foldr_cons] at ih ⊢
      rw [ih, min_assoc]

theorem rayMarchLoop_eq_specLoop (time : ℝ) (qC : Vec4) (ro rd : Vec3) (n : ℕ) :
    ∀ (t : ℝ) (ds : List ℝ),
      rayMarchLoop time qC ro rd n t (observedMin ds) =
        rayMarchSpecLoop time qC ro rd n t ds := by
  induction n with
  | zero => intro t ds; rfl
  | succ n ih =>
      intro t ds
      rw [rayMarchLoop_succ]
      show (if _ < 0.0001 then t
            else if 40 < t then (if min (observedMin ds) _ < 0.1 then t else 40)
            else rayMarchLoop time qC ro rd n _ (min (observedMin ds) _)) = _
      rw [← observedMin_append, ih]
      rfl

/-- C1: the ray marcher performs exactly the march the spec describes: steps
of `DE * 0.45` over at most 512 steps, immediate hit when the damped distance
drops below `1e-4`, and on exhaustion or `t > 40` a near hit (returning the
current `t`) exactly when the minimum observed damped distance was below
`0.1`, with `40` as the no-hit sentinel otherwise. -/
theorem rayMarch_spec_correct (ro rd : Vec3) (time : ℝ) (qC : Vec4) :
    rayMarch ro rd time qC = rayMarchSpec ro rd time qC := by
  have h := rayMarchLoop_eq_specLoop time qC ro rd 512 0 []
  simpa [observedMin, rayMarch, rayMarchSpec] using h

/-! ## C6: degenerate-gradient behaviour of getNormal

With constant `(0,0,0,0)` the DE orbit of an axis point `(±h, 0, 0)` depends
only on `h*h`, so the central-difference gradient at the origin is exactly the
zero vector; `getNormal` normalizes it with no guard. -/

theorem deLoop_step_congr (c : Vec4) (n : ℕ) (z1 z2 : Vec4) (dr r1 r2 : ℝ)
    (hlen : length4 z1 = length4 z2) (hsq : qmul z1 z1 = qmul z2 z2) :
    deLoop c (n + 1) z1 dr r1 = deLoop c (n + 1) z2 dr r2 := by
  rw [deLoop_succ, deLoop_succ, hlen, hsq]

theorem DE_axis_symm_x (h : ℝ) :
    DE ⟨-h, 0, 0⟩ 0 ⟨0, 0, 0, 0⟩ = DE ⟨h, 0, 0⟩ 0 ⟨0, 0, 0, 0⟩ := by
  have hlen : length4 ⟨-h, 0, 0, 0⟩ = length4 ⟨h, 0, 0, 0⟩ := by
    simp only [length4]
    ring_nf
  have hsq : qmul ⟨-h, 0, 0, 0⟩ ⟨-h, 0, 0, 0⟩ = qmul ⟨h, 0, 0, 0⟩ ⟨h, 0, 0, 0⟩ := by
    simp only [qmul, Vec4.mk.injEq]
    refine ⟨by ring, by ring, by ring, by ring⟩
  have hloop : deLoop (rotConst ⟨0, 0, 0, 0⟩ 0) 20 ⟨-h, 0, 0, 0⟩ 1 0 =
      deLoop (rotConst ⟨0, 0, 0, 0⟩ 0) 20 ⟨h, 0, 0, 0⟩ 1 0 :=
    deLoop_step_congr _ 19 _ _ _ _ _ hlen hsq
  show 0.5 * Real.log (deLoop (rotConst ⟨0, 0, 0, 0⟩ 0) 20 ⟨-h, 0, 0, 0⟩ 1 0).1 *
      (deLoop (rotConst ⟨0, 0, 0, 0⟩ 0) 20 ⟨-h, 0, 0, 0⟩ 1 0).1 /
      (deLoop (rotConst ⟨0, 0, 0, 0⟩ 0) 20 ⟨-h, 0, 0, 0⟩ 1 0).2 =
    0.5 * Real.log (deLoop (rotConst ⟨0, 0, 0, 0⟩ 0) 20 ⟨h, 0, 0, 0⟩ 1 0).1 *
      (deLoop (rotConst ⟨0, 0, 0, 0⟩ 0) 20 ⟨h, 0, 0, 0⟩ 1 0).1 /
      (deLoop (rotConst ⟨0, 0, 0, 0⟩ 0) 20 ⟨h, 0, 0, 0⟩ 1 0).2
  rw [hloop]

theorem DE_axis_symm_y (h : ℝ) :
    DE ⟨0, -h, 0⟩ 0 ⟨0, 0, 0, 0⟩ = DE ⟨0, h, 0⟩ 0 ⟨0, 0, 0, 0⟩ := by
  have hlen : length4 ⟨0, -h, 0, 0⟩ = length4 ⟨0, h, 0, 0⟩ := by
    simp only [length4]
    ring_nf
  have hsq : qmul ⟨0, -h, 0, 0⟩ ⟨0, -h, 0, 0⟩ = qmul ⟨0, h, 0, 0⟩ ⟨0, h, 0, 0⟩ := by
    simp only [qmul, Vec4.mk.injEq]
    refine ⟨by ring, by ring, by ring, by ring⟩
  have hloop : deLoop (rotConst ⟨0, 0, 0, 0⟩ 0) 20 ⟨0, -h, 0, 0⟩ 1 0 =
      deLoop (rotConst ⟨0, 0, 0, 0⟩ 0) 20 ⟨0, h, 0, 0⟩ 1 0 :=
    deLoop_step_congr _ 19 _ _ _ _ _ hlen hsq
  show 0.5 * Real.log (deLoop (rotConst ⟨0, 0, 0, 0⟩ 0) 20 ⟨0, -h, 0, 0⟩ 1 0).1 *
      (deLoop (rotConst ⟨0, 0, 0, 0⟩ 0) 20 ⟨0, -h, 0, 0⟩ 1 0).1 /
      (deLoop (rotConst ⟨0, 0, 0, 0⟩ 0) 20 ⟨0, -h, 0, 0⟩ 1 0).2 =
    0.5 * Real.log (deLoop (rotConst ⟨0, 0, 0, 0⟩ 0) 20 ⟨0, h, 0, 0⟩ 1 0).1 *
      (deLoop (rotConst ⟨0, 0, 0, 0⟩ 0) 20 ⟨0, h, 0, 0⟩ 1 0).1 /
      (deLoop (rotConst ⟨0, 0, 0, 0⟩ 0) 20 ⟨0, h, 0, 0⟩ 1 0).2
  rw [hloop]

theorem DE_axis_symm_z (h : ℝ) :
    DE ⟨0, 0, -h⟩ 0 ⟨0, 0, 0, 0⟩ = DE ⟨0, 0, h⟩ 0 ⟨0, 0, 0, 0⟩ := by
  have hlen : length4 ⟨0, 0, -h, 0⟩ = length4 ⟨0, 0, h, 0⟩ := by
    simp only [length4]
    ring_nf
  have hsq : qmul ⟨0, 0, -h, 0⟩ ⟨0, 0, -h, 0⟩ = qmul ⟨0, 0, h, 0⟩ ⟨0, 0, h, 0⟩ := by
    simp only [qmul, Vec4.mk.injEq]
    refine ⟨by ring, by ring, by ring, by ring⟩
  have hloop : deLoop (rotConst ⟨0, 0, 0, 0⟩ 0) 20 ⟨0, 0, -h, 0⟩ 1 0 =
      deLoop (rotConst ⟨0, 0, 0, 0⟩ 0) 20 ⟨0, 0, h, 0⟩ 1 0 :=
    deLoop_step_congr _ 19 _ _ _ _ _ hlen hsq
  show 0.5 * Real.log (deLoop (rotConst ⟨0, 0, 0, 0⟩ 0) 20 ⟨0, 0, -h, 0⟩ 1 0).1 *
      (deLoop (rotConst ⟨0, 0, 0, 0⟩ 0) 20 ⟨0, 0, -h, 0⟩ 1 0).1 /
      (deLoop (rotConst ⟨0, 0, 0, 0⟩ 0) 20 ⟨0, 0, -h, 0⟩ 1 0).2 =
    0.5 * Real.log (deLoop (rotConst ⟨0, 0, 0, 0⟩ 0) 20 ⟨0, 0, h, 0⟩ 1 0).1 *
      (deLoop (rotConst ⟨0, 0, 0, 0⟩ 0) 20 ⟨0, 0, h, 0⟩ 1 0).1 /
      (deLoop (rotConst ⟨0, 0, 0, 0⟩ 0) 20 ⟨0, 0, h, 0⟩ 1 0).2
  rw [hloop]

theorem centralGrad_origin : centralGrad ⟨0, 0, 0⟩ 0 ⟨0, 0, 0, 0⟩ = ⟨0, 0, 0⟩ := by
  have e1 : (⟨0, 0, 0⟩ : Vec3) + ⟨0.0001, 0, 0⟩ = ⟨0.0001, 0, 0⟩ := by
    rw [Vec3.add_def]; norm_num
  have e2 : (⟨0, 0, 0⟩ : Vec3) - ⟨0.0001, 0, 0⟩ = ⟨-0.0001, 0, 0⟩ := by
    rw [Vec3.sub_def]; norm_num
  have e3 : (⟨0, 0, 0⟩ : Vec3) + ⟨0, 0.0001, 0⟩ = ⟨0, 0.0001, 0⟩ := by
    rw [Vec3.add_def]; norm_num
  have e4 : (⟨0, 0, 0⟩ : Vec3) - ⟨0, 0.0001, 0⟩ = ⟨0, -0.0001, 0⟩ := by
    rw [Vec3.sub_def]; norm_num
  have e5 : (⟨0, 0, 0⟩ : Vec3) + ⟨0, 0, 0.0001⟩ = ⟨0, 0, 0.0001⟩ := by
    rw [Vec3.add_def]; norm_num
  have e6 : (⟨0, 0, 0⟩ : Vec3) - ⟨0, 0, 0.0001⟩ = ⟨0, 0, -0.0001⟩ := by
    rw [Vec3.sub_def]; norm_num
  rw [centralGrad, e1, e2, e3, e4, e5, e6, DE_axis_symm_x, DE_axis_symm_y, DE_axis_symm_z]
  simp [Vec3.mk.injEq]

/-- C6 counterexample: at the origin with constant `(0,0,0,0)` and time `0`
the central-difference gradient of `DE` is exactly the zero vector, yet
`getNormal` does not return a fallback normal such as `(0,1,0)`: it
normalizes the zero vector (a division by zero, which in the real-number
semantics of the embedding produces the zero vector). -/
theorem getNormal_zero_gradient_no_fallback :
    centralGrad ⟨0, 0, 0⟩ 0 ⟨0, 0, 0, 0⟩ = ⟨0, 0, 0⟩ ∧
    getNormal ⟨0, 0, 0⟩ 0 ⟨0, 0, 0, 0⟩ ≠ ⟨0, 1, 0⟩ ∧
    getNormal ⟨0, 0, 0⟩ 0 ⟨0, 0, 0, 0⟩ = ⟨0, 0, 0⟩ := by
  have h1 : getNormal ⟨0, 0, 0⟩ 0 ⟨0, 0, 0, 0⟩ = ⟨0, 0, 0⟩ := by
    rw [getNormal, centralGrad_origin]
    simp [normalize3]
  refine ⟨centralGrad_origin, ?_, h1⟩
  rw [h1]
  simp [Vec3.mk.injEq]

/-- C6 amended: `getNormal` has no degenerate-gradient fallback; whenever the
central-difference gradient is the zero vector it normalizes the zero vector,
dividing by zero, and (in the real-number semantics of the embedding) returns
the zero vector rather than a fallback normal such as `(0,1,0)`. -/
theorem getNormal_degenerate_returns_zero (p : Vec3) (time : ℝ) (qC : Vec4)
    (hdeg : centralGrad p time qC = ⟨0, 0, 0⟩) :
    getNormal p time qC = ⟨0, 0, 0⟩ := by
  rw [getNormal, hdeg]
  simp [normalize3]

theorem getNormal_degenerate_returns_zero_witness :
    centralGrad ⟨0, 0, 0⟩ 0 ⟨0, 0, 0, 0⟩ = ⟨0, 0, 0⟩ ∧
    getNormal ⟨0, 0, 0⟩ 0 ⟨0, 0, 0, 0⟩ = ⟨0, 0, 0⟩ :=
  ⟨centralGrad_origin, getNormal_degenerate_returns_zero _ _ _ centralGrad_origin⟩

/-! ## C7: the shading combination -/

/-- C7: the fragment color always has alpha exactly 1; with no hit
(`t` not strictly below 40) the RGB output is pure black; with a hit the RGB
output is `baseColor * (0.2 + 0.4*diff1 + 0.2*diff2) + 0.8*(spec1+spec2)*0.5`
plus the additive glow term `baseColor * exp(-|p|*1.5) * 0.3`, where
`diff1`, `diff2` are the clamped Lambertian terms and `spec1`, `spec2` the
shininess-32 specular terms of the rotating light `normalize(sin t, 1, cos t)`
and the fixed light `normalize(-0.707, 0.707, 0)`. -/
theorem fragMain_shading_spec (cameraPosition vWorldPosition vNormal : Vec3) (time : ℝ)
    (qC : Vec4) (res : ℝ × ℝ) :
    fragMain cameraPosition vWorldPosition vNormal time qC res =
      (let rd := normalize3 (normalize3 (vWorldPosition - cameraPosition) +
        (0.01 : ℝ) • vNormal)
       let t := rayMarch cameraPosition rd time qC
       if t < 40 then
         let p := cameraPosition + t • rd
         let n := getNormal p time qC
         let light1 := normalize3 ⟨Real.sin time, 1, Real.cos time⟩
         let light2 := normalize3 ⟨-0.707, 0.707, 0⟩
         let diff1 := max (dot3 n light1) 0
         let diff2 := max (dot3 n light2) 0
         let spec1 := max (dot3 (reflect3 (-light1) n) (-rd)) 0 ^ (32 : ℕ)
         let spec2 := max (dot3 (reflect3 (-light2) n) (-rd)) 0 ^ (32 : ℕ)
         let baseColor := palette (length3 p * 0.5 + dot3 n ⟨1, 1, 1⟩ * 0.5) time
         let glow := Real.exp (-length3 p * 1.5)
         ⟨baseColor.x * (0.2 + 0.4 * diff1 + 0.2 * diff2) + 0.8 * (spec1 + spec2) * 0.5 +
            baseColor.x * glow * 0.3,
          baseColor.y * (0.2 + 0.4 * diff1 + 0.2 * diff2) + 0.8 * (spec1 + spec2) * 0.5 +
            baseColor.y * glow * 0.3,
          baseColor.z * (0.2 + 0.4 * diff1 + 0.2 * diff2) + 0.8 * (spec1 + spec2) * 0.5 +
            baseColor.z * glow * 0.3,
          1⟩
       else ⟨0, 0, 0, 1⟩) := by
  simp only [fragMain]
  split_ifs with hT
  · simp only [Vec3.add_x, Vec3.add_y, Vec3.add_z, Vec3.smul_x, Vec3.smul_y, Vec3.smul_z,
      Vec4.mk.injEq]
    refine ⟨by ring, by ring, by ring, trivial⟩
  · rfl

/-! ## C4: the marcher can return a travel distance beyond the maximum

The loop only tests `t > 40` after having already advanced `t`, so a ray that
once grazes the set (recording `minD < 0.1`) and then runs off to infinity
returns its final `t`, which exceeds 40.  The witness ray starts at
`(1.45, 0, 0)` pointing along `+x` at `time = 0`: the whole march stays on
the positive `x`-axis, where the quaternion orbit escapes within two
iterations and the DE values can be bounded by rational interval arithmetic. -/

def qC0 : Vec4 := ⟨-0.2, 0.4, -0.4, -0.4⟩

def ro0 : Vec3 := ⟨1.45, 0, 0⟩

def rd0 : Vec3 := ⟨1, 0, 0⟩

theorem rotConst_qC0 : rotConst qC0 0 = qC0 := by
  simp [rotConst, qC0, Real.cos_zero, Real.sin_zero]

theorem axis_point (t : ℝ) : ro0 + t • rd0 = ⟨1.45 + t, 0, 0⟩ := by
  simp [ro0, rd0, Vec3.add_def, Vec3.smul_def, Vec3.mk.injEq]

theorem length4_axis (x : ℝ) (hx : 0 ≤ x) : length4 ⟨x, 0, 0, 0⟩ = x := by
  have h : x * x + 0 * 0 + 0 * 0 + 0 * 0 = x * x := by ring
  rw [length4, h, Real.sqrt_mul_self hx]

/-- Squared radius after one axis iteration `z₁ = (x² - 0.2, 0.4, -0.4, -0.4)`. -/
def rho1 (x : ℝ) : ℝ := (x * x - 0.2) * (x * x - 0.2) + 0.48

/-- Squared radius after two axis iterations. -/
def rho2 (x : ℝ) : ℝ :=
  ((x * x - 0.2) * (x * x - 0.2) - 0.68) * ((x * x - 0.2) * (x * x - 0.2) - 0.68) +
    3 * ((0.8 * (x * x - 0.2) + 0.4) * (0.8 * (x * x - 0.2) + 0.4))

theorem axis_iter1 (x : ℝ) :
    qmul ⟨x, 0, 0, 0⟩ ⟨x, 0, 0, 0⟩ + qC0 = ⟨x * x - 0.2, 0.4, -0.4, -0.4⟩ := by
  simp only [qmul, qC0, Vec4.add_mk, Vec4.mk.injEq]
  refine ⟨by ring, by norm_num, by norm_num, by norm_num⟩

theorem axis_iter2 (x : ℝ) :
    qmul ⟨x * x - 0.2, 0.4, -0.4, -0.4⟩ ⟨x * x - 0.2, 0.4, -0.4, -0.4⟩ + qC0 =
      ⟨(x * x - 0.2) * (x * x - 0.2) - 0.68, 0.8 * (x * x - 0.2) + 0.4,
       -(0.8 * (x * x - 0.2)) - 0.4, -(0.8 * (x * x - 0.2)) - 0.4⟩ := by
  simp only [qmul, qC0, Vec4.add_mk, Vec4.mk.injEq]
  refine ⟨by ring, by ring, by ring, by ring⟩

theorem length4_iter1 (x : ℝ) :
    length4 ⟨x * x - 0.2, 0.4, -0.4, -0.4⟩ = Real.sqrt (rho1 x) := by
  rw [length4, rho1]
  congr 1
  ring

theorem length4_iter2 (x : ℝ) :
    length4 ⟨(x * x - 0.2) * (x * x - 0.2) - 0.68, 0.8 * (x * x - 0.2) + 0.4,
      -(0.8 * (x * x - 0.2)) - 0.4, -(0.8 * (x * x - 0.2)) - 0.4⟩ = Real.sqrt (rho2 x) := by
  rw [length4, rho2]
  congr 1
  ring

theorem rho1_pos (x : ℝ) : 0 < rho1 x := by
  rw [rho1]
  nlinarith [mul_self_nonneg (x * x - 0.2)]

theorem rho2_pos (x : ℝ) : 0 < rho2 x := by
  rw [rho2]
  nlinarith [mul_self_nonneg ((x * x - 0.2) * (x * x - 0.2) - 0.68), mul_self_nonneg x,
    mul_self_nonneg (0.8 * (x * x - 0.2) + 0.4 - 0.24)]

theorem sqrt_16_eq : Real.sqrt 16 = 4 := by
  rw [show (16 : ℝ) = 4 ^ 2 by norm_num, Real.sqrt_sq (by norm_num)]

/-- On the positive axis beyond radius 4 the orbit escapes at iteration 0,
so `DE(x,0,0) = 0.5 * log x * x`. -/
theorem DE_axis_zone0 (x : ℝ) (hx : 4 < x) : DE ⟨x, 0, 0⟩ 0 qC0 = 0.5 * Real.log x * x := by
  have h0 : (0 : ℝ) ≤ x := by linarith
  show 0.5 * Real.log (deLoop (rotConst qC0 0) 20 ⟨x, 0, 0, 0⟩ 1 0).1 *
      (deLoop (rotConst qC0 0) 20 ⟨x, 0, 0, 0⟩ 1 0).1 /
      (deLoop (rotConst qC0 0) 20 ⟨x, 0, 0, 0⟩ 1 0).2 = 0.5 * Real.log x * x
  rw [rotConst_qC0, show (20 : ℕ) = 19 + 1 from rfl, deLoop_succ, length4_axis x h0, if_pos hx]
  norm_num

/-- Escape at iteration 1: for `0 < x ≤ 4` with `rho1 x > 16`,
`DE(x,0,0) = 0.25 * log (rho1 x) * sqrt (rho1 x) / (2x + 1)`. -/
theorem DE_axis_zone1 (x : ℝ) (h0 : 0 < x) (h4 : x ≤ 4) (hesc : 16 < rho1 x) :
    DE ⟨x, 0, 0⟩ 0 qC0 =
      0.25 * Real.log (rho1 x) * Real.sqrt (rho1 x) / (2 * x + 1) := by
  have hx0 : (0 : ℝ) ≤ x := le_of_lt h0
  have h4s : 4 < Real.sqrt (rho1 x) := by
    rw [← sqrt_16_eq]
    exact Real.sqrt_lt_sqrt (by norm_num) hesc
  show 0.5 * Real.log (deLoop (rotConst qC0 0) 20 ⟨x, 0, 0, 0⟩ 1 0).1 *
      (deLoop (rotConst qC0 0) 20 ⟨x, 0, 0, 0⟩ 1 0).1 /
      (deLoop (rotConst qC0 0) 20 ⟨x, 0, 0, 0⟩ 1 0).2 =
    0.25 * Real.log (rho1 x) * Real.sqrt (rho1 x) / (2 * x + 1)
  rw [rotConst_qC0, show (20 : ℕ) = 19 + 1 from rfl, deLoop_succ, length4_axis x hx0,
    if_neg (not_lt.mpr h4), axis_iter1, show (19 : ℕ) = 18 + 1 from rfl, deLoop_succ,
    length4_iter1, if_pos h4s]
  rw [show ((Real.sqrt (rho1 x), 2 * x * 1 + 1) : ℝ × ℝ).1 = Real.sqrt (rho1 x) from rfl,
    show ((Real.sqrt (rho1 x), 2 * x * 1 + 1) : ℝ × ℝ).2 = 2 * x * 1 + 1 from rfl,
    Real.log_sqrt (le_of_lt (rho1_pos x))]
  ring

/-- Escape at iteration 2: for `0 < x ≤ 4` with `rho1 x ≤ 16 < rho2 x`,
`DE(x,0,0) = 0.25 * log (rho2 x) * sqrt (rho2 x) / (2 * sqrt (rho1 x) * (2x+1) + 1)`. -/
theorem DE_axis_zone2 (x : ℝ) (h0 : 0 < x) (h4 : x ≤ 4) (h1e : rho1 x ≤ 16)
    (h2e : 16 < rho2 x) :
    DE ⟨x, 0, 0⟩ 0 qC0 =
      0.25 * Real.log (rho2 x) * Real.sqrt (rho2 x) /
        (2 * Real.sqrt (rho1 x) * (2 * x + 1) + 1) := by
  have hx0 : (0 : ℝ) ≤ x := le_of_lt h0
  have h1s : ¬(4 < Real.sqrt (rho1 x)) := by
    rw [← sqrt_16_eq]
    exact not_lt.mpr (Real.sqrt_le_sqrt h1e)
  have h2s : 4 < Real.sqrt (rho2 x) := by
    rw [← sqrt_16_eq]
    exact Real.sqrt_lt_sqrt (by norm_num) h2e
  show 0.5 * Real.log (deLoop (rotConst qC0 0) 20 ⟨x, 0, 0, 0⟩ 1 0).1 *
      (deLoop (rotConst qC0 0) 20 ⟨x, 0, 0, 0⟩ 1 0).1 /
      (deLoop (rotConst qC0 0) 20 ⟨x, 0, 0, 0⟩ 1 0).2 =
    0.25 * Real.log (rho2 x) * Real.sqrt (rho2 x) /
      (2 * Real.sqrt (rho1 x) * (2 * x + 1) + 1)
  rw [rotConst_qC0, show (20 : ℕ) = 19 + 1 from rfl, deLoop_succ, length4_axis x hx0,
    if_neg (not_lt.mpr h4), axis_iter1, show (19 : ℕ) = 18 + 1 from rfl, deLoop_succ,
    length4_iter1, if_neg h1s, axis_iter2, show (18 : ℕ) = 17 + 1 from rfl, deLoop_succ,
    length4_iter2, if_pos h2s]
  rw [show ((Real.sqrt (rho2 x), 2 * Real.sqrt (rho1 x) * (2 * x * 1 + 1) + 1) : ℝ × ℝ).1 =
      Real.sqrt (rho2 x) from rfl,
    show ((Real.sqrt (rho2 x), 2 * Real.sqrt (rho1 x) * (2 * x * 1 + 1) + 1) : ℝ × ℝ).2 =
      2 * Real.sqrt (rho1 x) * (2 * x * 1 + 1) + 1 from rfl,
    Real.log_sqrt (le_of_lt (rho2_pos x))]
  have hden : 2 * Real.sqrt (rho1 x) * (2 * x * 1 + 1) + 1 =
      2 * Real.sqrt (rho1 x) * (2 * x + 1) + 1 := by ring
  rw [hden]
  ring

/-! Interval-arithmetic helpers used by the generated march bound chain. -/

theorem sq_bounds (u ua ub : ℝ) (h0 : 0 ≤ ua) (h1 : ua ≤ u) (h2 : u ≤ ub) :
    ua * ua ≤ u * u ∧ u * u ≤ ub * ub :=
  ⟨mul_le_mul h1 h1 h0 (h0.trans h1),
   mul_le_mul h2 h2 (h0.trans h1) ((h0.trans h1).trans h2)⟩

theorem sqrt_approx (q lo hi : ℝ) (h0 : 0 ≤ lo) (hh0 : 0 ≤ hi)
    (hlo : lo * lo ≤ q) (hhi : q ≤ hi * hi) :
    lo ≤ Real.sqrt q ∧ Real.sqrt q ≤ hi := by
  constructor
  · have h := Real.sqrt_le_sqrt hlo
    rwa [Real.sqrt_mul_self h0] at h
  · have h := Real.sqrt_le_sqrt hhi
    rwa [Real.sqrt_mul_self hh0] at h

theorem mul_interval_bounds (a b aa ab ba bb : ℝ) (ha0 : 0 < aa) (hb0 : 0 < ba)
    (ha1 : aa ≤ a) (ha2 : a ≤ ab) (hb1 : ba ≤ b) (hb2 : b ≤ bb) :
    aa * ba ≤ a * b ∧ a * b ≤ ab * bb := by
  constructor
  · exact mul_le_mul ha1 hb1 (le_of_lt hb0) (le_trans (le_of_lt ha0) ha1)
  · exact mul_le_mul ha2 hb2 (le_trans (le_of_lt hb0) hb1)
      (le_trans (le_trans (le_of_lt ha0) ha1) ha2)

theorem log_approx (q lo hi : ℝ) (k : ℕ) (x : ℝ)
    (hq : q = 2 ^ k * (1 - x)) (hx : |x| ≤ 1 / 3)
    (hlo : lo ≤ k * 0.6931471804 -
      Finset.sum (Finset.range 5) (fun i => x ^ (i + 1) / (i + 1)) - 0.0021)
    (hhi : k * 0.6931471807 -
      Finset.sum (Finset.range 5) (fun i => x ^ (i + 1) / (i + 1)) + 0.0021 ≤ hi) :
    lo ≤ Real.log q ∧ Real.log q ≤ hi := by
  have hx1 : |x| < 1 := lt_of_le_of_lt hx (by norm_num)
  have hx2 : x < 1 := lt_of_le_of_lt (le_abs_self x) hx1
  have h1x : (0 : ℝ) < 1 - x := by linarith
  have hlq : Real.log q = k * Real.log 2 + Real.log (1 - x) := by
    rw [hq, Real.log_mul (by positivity) (ne_of_gt h1x), Real.log_pow]
  have hser := Real.abs_log_sub_add_sum_range_le hx1 5
  have herr : |x| ^ (5 + 1) / (1 - |x|) ≤ 0.0021 := by
    have h1 : |x| ^ 6 ≤ (1 / 3 : ℝ) ^ 6 := pow_le_pow_left₀ (abs_nonneg x) hx 6
    have h2 : (2 / 3 : ℝ) ≤ 1 - |x| := by
      have := abs_nonneg x
      linarith
    calc |x| ^ (5 + 1) / (1 - |x|) ≤ (1 / 3 : ℝ) ^ 6 / (2 / 3) :=
          div_le_div₀ (by norm_num) h1 (by norm_num) h2
      _ ≤ 0.0021 := by norm_num
  have hser2 : |Finset.sum (Finset.range 5) (fun i => x ^ (i + 1) / (i + 1)) +
      Real.log (1 - x)| ≤ 0.0021 := le_trans hser herr
  have habs := abs_le.mp hser2
  have hl2 := Real.log_two_near_10
  have hl2i := abs_sub_le_iff.mp hl2
  have hl2a : (0.6931471804 : ℝ) ≤ Real.log 2 := by
    have h := hl2i.2
    norm_num at h ⊢
    linarith
  have hl2b : Real.log 2 ≤ (0.6931471807 : ℝ) := by
    have h := hl2i.1
    norm_num at h ⊢
    linarith
  have hcast : (0 : ℝ) ≤ (k : ℝ) := Nat.cast_nonneg k
  have hk1 : (k : ℝ) * 0.6931471804 ≤ (k : ℝ) * Real.log 2 :=
    mul_le_mul_of_nonneg_left hl2a hcast
  have hk2 : (k : ℝ) * Real.log 2 ≤ (k : ℝ) * 0.6931471807 :=
    mul_le_mul_of_nonneg_left hl2b hcast
  constructor
  · rw [hlq]
    linarith [habs.1]
  · rw [hlq]
    linarith [habs.2]

theorem de_form_bounds (L S D La Lb Sa Sb Da Db lo hi : ℝ)
    (hL1 : La ≤ L) (hL2 : L ≤ Lb) (hS1 : Sa ≤ S) (hS2 : S ≤ Sb)
    (hD1 : Da ≤ D) (hD2 : D ≤ Db)
    (hLa : 0 < La) (hSa : 0 < Sa) (hDa : 0 < Da)
    (hlo : lo ≤ 0.25 * La * Sa / Db) (hhi : 0.25 * Lb * Sb / Da ≤ hi) :
    lo ≤ 0.25 * L * S / D ∧ 0.25 * L * S / D ≤ hi := by
  have hp1 : (0 : ℝ) < 0.25 * La * Sa := by nlinarith [mul_pos hLa hSa]
  have ha : 0.25 * La * Sa ≤ 0.25 * L * S := by
    nlinarith [mul_nonneg (sub_nonneg.mpr hL1) (sub_nonneg.mpr hS1)]
  have hb : 0.25 * L * S ≤ 0.25 * Lb * Sb := by
    have hS0 : (0 : ℝ) ≤ S := le_trans (le_of_lt hSa) hS1
    have hLb0 : (0 : ℝ) ≤ Lb := le_trans (le_of_lt hLa) (le_trans hL1 hL2)
    nlinarith [mul_nonneg (sub_nonneg.mpr hL2) hS0, mul_nonneg hLb0 (sub_nonneg.mpr hS2)]
  constructor
  · exact le_trans hlo
      (div_le_div₀ (le_trans (le_of_lt hp1) ha) ha (lt_of_lt_of_le hDa hD1) hD2)
  · exact le_trans
      (div_le_div₀ (le_trans (le_of_lt hp1) (le_trans ha hb)) hb hDa hD1) hhi

/-- Once `t` has passed 40 with a recorded near miss, one more loop iteration
returns `t` itself, whether or not that iteration also sees a tiny `d`. -/
theorem marchLoop_tail (n : ℕ) (t minD : ℝ) (hm : minD < 0.1) (ht : 40 < t) :
    rayMarchLoop 0 qC0 ro0 rd0 (n + 1) t minD = t := by
  rw [rayMarchLoop_succ]
  by_cases hd : DE (ro0 + t • rd0) 0 qC0 * 0.45 < 0.0001
  · rw [if_pos hd]
  · rw [if_neg hd, if_pos ht, if_pos (lt_of_le_of_lt (min_le_left _ _) hm)]

/-- The march loop instrumented to also return the final `minD` at exit. -/
def rayMarchExitLoop (time : ℝ) (qC : Vec4) (ro rd : Vec3) : ℕ → ℝ → ℝ → ℝ × ℝ
  | 0, t, minD => (if minD < 0.1 then t else 40, minD)
  | n + 1, t, minD =>
      let d := DE (ro + t • rd) time qC * 0.45
      if d < 0.0001 then (t, min minD d)
      else if 40 < t then (if min minD d < 0.1 then t else 40, min minD d)
      else rayMarchExitLoop time qC ro rd n (t + d) (min minD d)

/-- The minimum damped distance recorded by the march at the moment it exits. -/
def marchMinAtExit (ro rd : Vec3) (time : ℝ) (qC : Vec4) : ℝ :=
  (rayMarchExitLoop time qC ro rd 512 0 40).2

theorem rayMarchExitLoop_zero (time : ℝ) (qC : Vec4) (ro rd : Vec3) (t minD : ℝ) :
    rayMarchExitLoop time qC ro rd 0 t minD = (if minD < 0.1 then t else 40, minD) := rfl

theorem rayMarchExitLoop_succ (time : ℝ) (qC : Vec4) (ro rd : Vec3) (n : ℕ) (t minD : ℝ) :
    rayMarchExitLoop time qC ro rd (n + 1) t minD =
      (if DE (ro + t • rd) time qC * 0.45 < 0.0001 then
        (t, min minD (DE (ro + t • rd) time qC * 0.45))
       else if 40 < t then
        (if min minD (DE (ro + t • rd) time qC * 0.45) < 0.1 then t else 40,
          min minD (DE (ro + t • rd) time qC * 0.45))
       else rayMarchExitLoop time qC ro rd n (t + DE (ro + t • rd) time qC * 0.45)
         (min minD (DE (ro + t • rd) time qC * 0.45))) := rfl

theorem rayMarchExitLoop_fst (time : ℝ) (qC : Vec4) (ro rd : Vec3) (n : ℕ) :
    ∀ (t minD : ℝ),
      (rayMarchExitLoop time qC ro rd n t minD).1 = rayMarchLoop time qC ro rd n t minD := by
  induction n with
  | zero =>
      intro t minD
      rfl
  | succ n ih =>
      intro t minD
      rw [rayMarchExitLoop_succ, rayMarchLoop_succ]
      by_cases h1 : DE (ro + t • rd) time qC * 0.45 < 0.0001
      · rw [if_pos h1, if_pos h1]
      · rw [if_neg h1, if_neg h1]
        by_cases h2 : 40 < t
        · rw [if_pos h2, if_pos h2]
        · rw [if_neg h2, if_neg h2]
          exact ih _ _

theorem rayMarchExitLoop_snd (time : ℝ) (qC : Vec4) (ro rd : Vec3) (n : ℕ) :
    ∀ (t minD : ℝ), 40 < (rayMarchExitLoop time qC ro rd n t minD).1 →
      (rayMarchExitLoop time qC ro rd n t minD).2 < 0.1 := by
  induction n with
  | zero =>
      intro t minD h
      rw [rayMarchExitLoop_zero] at h
      by_cases hm : minD < 0.1
      · exact hm
      · rw [if_neg hm] at h
        exact absurd h (lt_irrefl _)
  | succ n ih =>
      intro t minD h
      rw [rayMarchExitLoop_succ] at h
      by_cases h1 : DE (ro + t • rd) time qC * 0.45 < 0.0001
      · show (rayMarchExitLoop time qC ro rd (n + 1) t minD).2 < 0.1
        rw [rayMarchExitLoop_succ, if_pos h1]
        exact lt_of_le_of_lt (min_le_right _ _) (lt_trans h1 (by norm_num))
      · rw [if_neg h1] at h
        by_cases h2 : 40 < t
        · rw [if_pos h2] at h
          by_cases h3 : min minD (DE (ro + t • rd) time qC * 0.45) < 0.1
          · show (rayMarchExitLoop time qC ro rd (n + 1) t minD).2 < 0.1
            rw [rayMarchExitLoop_succ, if_neg h1, if_pos h2]
            exact h3
          · rw [if_neg h3] at h
            exact absurd h (lt_irrefl _)
        · rw [if_neg h2] at h
          show (rayMarchExitLoop time qC ro rd (n + 1) t minD).2 < 0.1
          rw [rayMarchExitLoop_succ, if_neg h1, if_neg h2]
          exact ih _ _ h

/-- C4 amended: the returned travel distance is the sentinel 40, or a value
below 40, or — when the march records a damped distance below the near-miss
tolerance 0.1 before exiting — a hit/near-hit value that can exceed 40
(the `t > 40` check runs only after `t` has already been advanced). -/
theorem rayMarch_result_classified (ro rd : Vec3) (time : ℝ) (qC : Vec4) :
    rayMarch ro rd time qC < 40 ∨ rayMarch ro rd time qC = 40 ∨
      (40 < rayMarch ro rd time qC ∧ marchMinAtExit ro rd time qC < 0.1) := by
  rcases lt_trichotomy (rayMarch ro rd time qC) 40 with h | h | h
  · exact Or.inl h
  · exact Or.inr (Or.inl h)
  · refine Or.inr (Or.inr ⟨h, ?_⟩)
    apply rayMarchExitLoop_snd time qC ro rd 512 0 40
    rw [rayMarchExitLoop_fst]
    exact h

theorem c4_step15 : ∀ t minD : ℝ, minD < 0.1 → (46.894103 : ℝ) ≤ t → t ≤ (47.953468 : ℝ) →
    40 < rayMarchLoop 0 qC0 ro0 rd0 497 t minD := by
  intro t minD hm ht1 ht2
  have h40 : (40 : ℝ) < t := by linarith only [ht1]
  rw [(by norm_num : (497 : ℕ) = 496 + 1), marchLoop_tail 496 t minD hm h40]
  exact h40

theorem c4_step14 : ∀ t minD : ℝ, minD < 0.1 → (26.227866 : ℝ) ≤ t → t ≤ (26.751083 : ℝ) →
    40 < rayMarchLoop 0 qC0 ro0 rd0 498 t minD := by
  intro t minD hm ht1 ht2
  by_cases h40 : 40 < t
  · rw [(by norm_num : (498 : ℕ) = 497 + 1), marchLoop_tail 497 t minD hm h40]
    exact h40
  · push_neg at h40
    have hx1 : (27.677866 : ℝ) ≤ 1.45 + t := by linarith only [ht1]
    have hx2 : 1.45 + t ≤ (28.201083 : ℝ) := by linarith only [ht2]
    have hDE : DE ⟨1.45 + t, 0, 0⟩ 0 qC0 = 0.5 * Real.log (1.45 + t) * (1.45 + t) :=
      DE_axis_zone0 (1.45 + t) (by linarith only [hx1])
    have hlga := log_approx (27.677866 : ℝ) (3.31853417) (3.32273418) 5 (0.1350666875 : ℝ) (by norm_num) (by rw [abs_le]; norm_num) (by simp only [Finset.sum_range_succ, Finset.sum_range_zero]; norm_num) (by simp only [Finset.sum_range_succ, Finset.sum_range_zero]; norm_num)
    have hlgb := log_approx (28.201083 : ℝ) (3.3372609) (3.34146091) 5 (0.11871615625 : ℝ) (by norm_num) (by rw [abs_le]; norm_num) (by simp only [Finset.sum_range_succ, Finset.sum_range_zero]; norm_num) (by simp only [Finset.sum_range_succ, Finset.sum_range_zero]; norm_num)
    have hL1 : (3.31853417 : ℝ) ≤ Real.log (1.45 + t) :=
      le_trans hlga.1 (Real.log_le_log (by norm_num) hx1)
    have hL2 : Real.log (1.45 + t) ≤ (3.34146091 : ℝ) :=
      le_trans (Real.log_le_log (by linarith only [hx1]) hx2) hlgb.2
    have hLX := mul_interval_bounds (Real.log (1.45 + t)) (1.45 + t)
      (3.31853417) (3.34146091) (27.677866) (28.201083)
      (by norm_num) (by norm_num) hL1 hL2 hx1 hx2
    have hd1 : (20.666237 : ℝ) ≤ DE ⟨1.45 + t, 0, 0⟩ 0 qC0 * 0.45 := by rw [hDE]; linarith only [hLX.1]
    have hd2 : DE ⟨1.45 + t, 0, 0⟩ 0 qC0 * 0.45 ≤ (21.202385 : ℝ) := by rw [hDE]; linarith only [hLX.2]
    rw [(by norm_num : (498 : ℕ) = 497 + 1), rayMarchLoop_succ, axis_point t,
      if_neg (not_lt.mpr (by linarith only [hd1] : (0.0001 : ℝ) ≤ DE ⟨1.45 + t, 0, 0⟩ 0 qC0 * 0.45)),
      if_neg (not_lt.mpr h40)]
    exact c4_step15 (t + DE ⟨1.45 + t, 0, 0⟩ 0 qC0 * 0.45)
      (min minD (DE ⟨1.45 + t, 0, 0⟩ 0 qC0 * 0.45))
      (lt_of_le_of_lt (min_le_left _ _) hm) (by linarith only [ht1, hd1]) (by linarith only [ht2, hd2])

theorem c4_step13 : ∀ t minD : ℝ, minD < 0.1 → (15.468805 : ℝ) ≤ t → t ≤ (15.740971 : ℝ) →
    40 < rayMarchLoop 0 qC0 ro0 rd0 499 t minD := by
  intro t minD hm ht1 ht2
  by_cases h40 : 40 < t
  · rw [(by norm_num : (499 : ℕ) = 498 + 1), marchLoop_tail 498 t minD hm h40]
    exact h40
  · push_neg at h40
    have hx1 : (16.918805 : ℝ) ≤ 1.45 + t := by linarith only [ht1]
    have hx2 : 1.45 + t ≤ (17.190971 : ℝ) := by linarith only [ht2]
    have hDE : DE ⟨1.45 + t, 0, 0⟩ 0 qC0 = 0.5 * Real.log (1.45 + t) * (1.45 + t) :=
      DE_axis_zone0 (1.45 + t) (by linarith only [hx1])
    have hlga := log_approx (16.918805 : ℝ) (2.82632573) (2.83052574) 4 (-0.0574253125 : ℝ) (by norm_num) (by rw [abs_le]; norm_num) (by simp only [Finset.sum_range_succ, Finset.sum_range_zero]; norm_num) (by simp only [Finset.sum_range_succ, Finset.sum_range_zero]; norm_num)
    have hlgb := log_approx (17.190971 : ℝ) (2.84228433) (2.84648434) 4 (-0.0744356875 : ℝ) (by norm_num) (by rw [abs_le]; norm_num) (by simp only [Finset.sum_range_succ, Finset.sum_range_zero]; norm_num) (by simp only [Finset.sum_range_succ, Finset.sum_range_zero]; norm_num)
    have hL1 : (2.82632573 : ℝ) ≤ Real.log (1.45 + t) :=
      le_trans hlga.1 (Real.log_le_log (by norm_num) hx1)
    have hL2 : Real.log (1.45 + t) ≤ (2.84648434 : ℝ) :=
      le_trans (Real.log_le_log (by linarith only [hx1]) hx2) hlgb.2
    have hLX := mul_interval_bounds (Real.log (1.45 + t)) (1.45 + t)
      (2.82632573) (2.84648434) (16.918805) (17.190971)
      (by norm_num) (by norm_num) hL1 hL2 hx1 hx2
    have hd1 : (10.759061 : ℝ) ≤ DE ⟨1.45 + t, 0, 0⟩ 0 qC0 * 0.45 := by rw [hDE]; linarith only [hLX.1]
    have hd2 : DE ⟨1.45 + t, 0, 0⟩ 0 qC0 * 0.45 ≤ (11.010112 : ℝ) := by rw [hDE]; linarith only [hLX.2]
    rw [(by norm_num : (499 : ℕ) = 498 + 1), rayMarchLoop_succ, axis_point t,
      if_neg (not_lt.mpr (by linarith only [hd1] : (0.0001 : ℝ) ≤ DE ⟨1.45 + t, 0, 0⟩ 0 qC0 * 0.45)),
      if_neg (not_lt.mpr h40)]
    exact c4_step14 (t + DE ⟨1.45 + t, 0, 0⟩ 0 qC0 * 0.45)
      (min minD (DE ⟨1.45 + t, 0, 0⟩ 0 qC0 * 0.45))
      (lt_of_le_of_lt (min_le_left _ _) hm) (by linarith only [ht1, hd1]) (by linarith only [ht2, hd2])

theorem c4_step12 : ∀ t minD : ℝ, minD < 0.1 → (9.543584 : ℝ) ≤ t → t ≤ (9.691832 : ℝ) →
    40 < rayMarchLoop 0 qC0 ro0 rd0 500 t minD := by
  intro t minD hm ht1 ht2
  by_cases h40 : 40 < t
  · rw [(by norm_num : (500 : ℕ) = 499 + 1), marchLoop_tail 499 t minD hm h40]
    exact h40
  · push_neg at h40
    have hx1 : (10.993584 : ℝ) ≤ 1.45 + t := by linarith only [ht1]
    have hx2 : 1.45 + t ≤ (11.141832 : ℝ) := by linarith only [ht2]
    have hDE : DE ⟨1.45 + t, 0, 0⟩ 0 qC0 = 0.5 * Real.log (1.45 + t) * (1.45 + t) :=
      DE_axis_zone0 (1.45 + t) (by linarith only [hx1])
    have hlga := log_approx (10.993584 : ℝ) (2.39542613) (2.39962615) 4 (0.312901 : ℝ) (by norm_num) (by rw [abs_le]; norm_num) (by simp only [Finset.sum_range_succ, Finset.sum_range_zero]; norm_num) (by simp only [Finset.sum_range_succ, Finset.sum_range_zero]; norm_num)
    have hlgb := log_approx (11.141832 : ℝ) (2.40878365) (2.41298367) 4 (0.3036355 : ℝ) (by norm_num) (by rw [abs_le]; norm_num) (by simp only [Finset.sum_range_succ, Finset.sum_range_zero]; norm_num) (by simp only [Finset.sum_range_succ, Finset.sum_range_zero]; norm_num)
    have hL1 : (2.39542613 : ℝ) ≤ Real.log (1.45 + t) :=
      le_trans hlga.1 (Real.log_le_log (by norm_num) hx1)
    have hL2 : Real.log (1.45 + t) ≤ (2.41298367 : ℝ) :=
      le_trans (Real.log_le_log (by linarith only [hx1]) hx2) hlgb.2
    have hLX := mul_interval_bounds (Real.log (1.45 + t)) (1.45 + t)
      (2.39542613) (2.41298367) (10.993584) (11.141832)
      (by norm_num) (by norm_num) hL1 hL2 hx1 hx2
    have hd1 : (5.925221 : ℝ) ≤ DE ⟨1.45 + t, 0, 0⟩ 0 qC0 * 0.45 := by rw [hDE]; linarith only [hLX.1]
    have hd2 : DE ⟨1.45 + t, 0, 0⟩ 0 qC0 * 0.45 ≤ (6.049139 : ℝ) := by rw [hDE]; linarith only [hLX.2]
    rw [(by norm_num : (500 : ℕ) = 499 + 1), rayMarchLoop_succ, axis_point t,
      if_neg (not_lt.mpr (by linarith only [hd1] : (0.0001 : ℝ) ≤ DE ⟨1.45 + t, 0, 0⟩ 0 qC0 * 0.45)),
      if_neg (not_lt.mpr h40)]
    exact c4_step13 (t + DE ⟨1.45 + t, 0, 0⟩ 0 qC0 * 0.45)
      (min minD (DE ⟨1.45 + t, 0, 0⟩ 0 qC0 * 0.45))
      (lt_of_le_of_lt (min_le_left _ _) hm) (by linarith only [ht1, hd1]) (by linarith only [ht2, hd2])

theorem c4_step11 : ∀ t minD : ℝ, minD < 0.1 → (6.107769 : ℝ) ≤ t → t ≤ (6.19167 : ℝ) →
    40 < rayMarchLoop 0 qC0 ro0 rd0 501 t minD := by
  intro t minD hm ht1 ht2
  by_cases h40 : 40 < t
  · rw [(by norm_num : (501 : ℕ) = 500 + 1), marchLoop_tail 500 t minD hm h40]
    exact h40
  · push_neg at h40
    have hx1 : (7.557769 : ℝ) ≤ 1.45 + t := by linarith only [ht1]
    have hx2 : 1.45 + t ≤ (7.64167 : ℝ) := by linarith only [ht2]
    have hDE : DE ⟨1.45 + t, 0, 0⟩ 0 qC0 = 0.5 * Real.log (1.45 + t) * (1.45 + t) :=
      DE_axis_zone0 (1.45 + t) (by linarith only [hx1])
    have hlga := log_approx (7.557769 : ℝ) (2.02047604) (2.02467605) 3 (0.055278875 : ℝ) (by norm_num) (by rw [abs_le]; norm_num) (by simp only [Finset.sum_range_succ, Finset.sum_range_zero]; norm_num) (by simp only [Finset.sum_range_succ, Finset.sum_range_zero]; norm_num)
    have hlgb := log_approx (7.64167 : ℝ) (2.03151616) (2.03571617) 3 (0.04479125 : ℝ) (by norm_num) (by rw [abs_le]; norm_num) (by simp only [Finset.sum_range_succ, Finset.sum_range_zero]; norm_num) (by simp only [Finset.sum_range_succ, Finset.sum_range_zero]; norm_num)
    have hL1 : (2.02047604 : ℝ) ≤ Real.log (1.45 + t) :=
      le_trans hlga.1 (Real.log_le_log (by norm_num) hx1)
    have hL2 : Real.log (1.45 + t) ≤ (2.03571617 : ℝ) :=
      le_trans (Real.log_le_log (by linarith only [hx1]) hx2) hlgb.2
    have hLX := mul_interval_bounds (Real.log (1.45 + t)) (1.45 + t)
      (2.02047604) (2.03571617) (7.557769) (7.64167)
      (by norm_num) (by norm_num) hL1 hL2 hx1 hx2
    have hd1 : (3.435815 : ℝ) ≤ DE ⟨1.45 + t, 0, 0⟩ 0 qC0 * 0.45 := by rw [hDE]; linarith only [hLX.1]
    have hd2 : DE ⟨1.45 + t, 0, 0⟩ 0 qC0 * 0.45 ≤ (3.500162 : ℝ) := by rw [hDE]; linarith only [hLX.2]
    rw [(by norm_num : (501 : ℕ) = 500 + 1), rayMarchLoop_succ, axis_point t,
      if_neg (not_lt.mpr (by linarith only [hd1] : (0.0001 : ℝ) ≤ DE ⟨1.45 + t, 0, 0⟩ 0 qC0 * 0.45)),
      if_neg (not_lt.mpr h40)]
    exact c4_step12 (t + DE ⟨1.45 + t, 0, 0⟩ 0 qC0 * 0.45)
      (min minD (DE ⟨1.45 + t, 0, 0⟩ 0 qC0 * 0.45))
      (lt_of_le_of_lt (min_le_left _ _) hm) (by linarith only [ht1, hd1]) (by linarith only [ht2, hd2])

theorem c4_step10 : ∀ t minD : ℝ, minD < 0.1 → (4.019181 : ℝ) ≤ t → t ≤ (4.068139 : ℝ) →
    40 < rayMarchLoop 0 qC0 ro0 rd0 502 t minD := by
  intro t minD hm ht1 ht2
  by_cases h40 : 40 < t
  · rw [(by norm_num : (502 : ℕ) = 501 + 1), marchLoop_tail 501 t minD hm h40]
    exact h40
  · push_neg at h40
    have hx1 : (5.469181 : ℝ) ≤ 1.45 + t := by linarith only [ht1]
    have hx2 : 1.45 + t ≤ (5.518139 : ℝ) := by linarith only [ht2]
    have hDE : DE ⟨1.45 + t, 0, 0⟩ 0 qC0 = 0.5 * Real.log (1.45 + t) * (1.45 + t) :=
      DE_axis_zone0 (1.45 + t) (by linarith only [hx1])
    have hlga := log_approx (5.469181 : ℝ) (1.69725871) (1.70145872) 3 (0.316352375 : ℝ) (by norm_num) (by rw [abs_le]; norm_num) (by simp only [Finset.sum_range_succ, Finset.sum_range_zero]; norm_num) (by simp only [Finset.sum_range_succ, Finset.sum_range_zero]; norm_num)
    have hlgb := log_approx (5.518139 : ℝ) (1.70614359) (1.7103436) 3 (0.310232625 : ℝ) (by norm_num) (by rw [abs_le]; norm_num) (by simp only [Finset.sum_range_succ, Finset.sum_range_zero]; norm_num) (by simp only [Finset.sum_range_succ, Finset.sum_range_zero]; norm_num)
    have hL1 : (1.69725871 : ℝ) ≤ Real.log (1.45 + t) :=
      le_trans hlga.1 (Real.log_le_log (by norm_num) hx1)
    have hL2 : Real.log (1.45 + t) ≤ (1.7103436 : ℝ) :=
      le_trans (Real.log_le_log (by linarith only [hx1]) hx2) hlgb.2
    have hLX := mul_interval_bounds (Real.log (1.45 + t)) (1.45 + t)
      (1.69725871) (1.7103436) (5.469181) (5.518139)
      (by norm_num) (by norm_num) hL1 hL2 hx1 hx2
    have hd1 : (2.088588 : ℝ) ≤ DE ⟨1.45 + t, 0, 0⟩ 0 qC0 * 0.45 := by rw [hDE]; linarith only [hLX.1]
    have hd2 : DE ⟨1.45 + t, 0, 0⟩ 0 qC0 * 0.45 ≤ (2.123531 : ℝ) := by rw [hDE]; linarith only [hLX.2]
    rw [(by norm_num : (502 : ℕ) = 501 + 1), rayMarchLoop_succ, axis_point t,
      if_neg (not_lt.mpr (by linarith only [hd1] : (0.0001 : ℝ) ≤ DE ⟨1.45 + t, 0, 0⟩ 0 qC0 * 0.45)),
      if_neg (not_lt.mpr h40)]
    exact c4_step11 (t + DE ⟨1.45 + t, 0, 0⟩ 0 qC0 * 0.45)
      (min minD (DE ⟨1.45 + t, 0, 0⟩ 0 qC0 * 0.45))
      (lt_of_le_of_lt (min_le_left _ _) hm) (by linarith only [ht1, hd1]) (by linarith only [ht2, hd2])

theorem c4_step9 : ∀ t minD : ℝ, minD < 0.1 → (2.695025 : ℝ) ≤ t → t ≤ (2.724154 : ℝ) →
    40 < rayMarchLoop 0 qC0 ro0 rd0 503 t minD := by
  intro t minD hm ht1 ht2
  by_cases h40 : 40 < t
  · rw [(by norm_num : (503 : ℕ) = 502 + 1), marchLoop_tail 502 t minD hm h40]
    exact h40
  · push_neg at h40
    have hx1 : (4.145025 : ℝ) ≤ 1.45 + t := by linarith only [ht1]
    have hx2 : 1.45 + t ≤ (4.174154 : ℝ) := by linarith only [ht2]
    have hDE : DE ⟨1.45 + t, 0, 0⟩ 0 qC0 = 0.5 * Real.log (1.45 + t) * (1.45 + t) :=
      DE_axis_zone0 (1.45 + t) (by linarith only [hx1])
    have hlga := log_approx (4.145025 : ℝ) (1.41980881) (1.42400883) 2 (-0.03625625 : ℝ) (by norm_num) (by rw [abs_le]; norm_num) (by simp only [Finset.sum_range_succ, Finset.sum_range_zero]; norm_num) (by simp only [Finset.sum_range_succ, Finset.sum_range_zero]; norm_num)
    have hlgb := log_approx (4.174154 : ℝ) (1.4268117) (1.43101171) 2 (-0.0435385 : ℝ) (by norm_num) (by rw [abs_le]; norm_num) (by simp only [Finset.sum_range_succ, Finset.sum_range_zero]; norm_num) (by simp only [Finset.sum_range_succ, Finset.sum_range_zero]; norm_num)
    have hL1 : (1.41980881 : ℝ) ≤ Real.log (1.45 + t) :=
      le_trans hlga.1 (Real.log_le_log (by norm_num) hx1)
    have hL2 : Real.log (1.45 + t) ≤ (1.43101171 : ℝ) :=
      le_trans (Real.log_le_log (by linarith only [hx1]) hx2) hlgb.2
    have hLX := mul_interval_bounds (Real.log (1.45 + t)) (1.45 + t)
      (1.41980881) (1.43101171) (4.145025) (4.174154)
      (by norm_num) (by norm_num) hL1 hL2 hx1 hx2
    have hd1 : (1.324156 : ℝ) ≤ DE ⟨1.45 + t, 0, 0⟩ 0 qC0 * 0.45 := by rw [hDE]; linarith only [hLX.1]
    have hd2 : DE ⟨1.45 + t, 0, 0⟩ 0 qC0 * 0.45 ≤ (1.343985 : ℝ) := by rw [hDE]; linarith only [hLX.2]
    rw [(by norm_num : (503 : ℕ) = 502 + 1), rayMarchLoop_succ, axis_point t,
      if_neg (not_lt.mpr (by linarith only [hd1] : (0.0001 : ℝ) ≤ DE ⟨1.45 + t, 0, 0⟩ 0 qC0 * 0.45)),
      if_neg (not_lt.mpr h40)]
    exact c4_step10 (t + DE ⟨1.45 + t, 0, 0⟩ 0 qC0 * 0.45)
      (min minD (DE ⟨1.45 + t, 0, 0⟩ 0 qC0 * 0.45))
      (lt_of_le_of_lt (min_le_left _ _) hm) (by linarith only [ht1, hd1]) (by linarith only [ht2, hd2])

theorem c4_step8 : ∀ t minD : ℝ, minD < 0.1 → (1.915903 : ℝ) ≤ t → t ≤ (1.931105 : ℝ) →
    40 < rayMarchLoop 0 qC0 ro0 rd0 504 t minD := by
  intro t minD hm ht1 ht2
  by_cases h40 : 40 < t
  · rw [(by norm_num : (504 : ℕ) = 503 + 1), marchLoop_tail 503 t minD hm h40]
    exact h40
  · push_neg at h40
    have hx1 : (3.365903 : ℝ) ≤ 1.45 + t := by linarith only [ht1]
    have hx2 : 1.45 + t ≤ (3.381105 : ℝ) := by linarith only [ht2]
    have hxx := sq_bounds (1.45 + t) (3.365903) (3.381105) (by norm_num) hx1 hx2
    have hA1 : (11.129303 : ℝ) ≤ (1.45 + t) * (1.45 + t) - 0.2 := by linarith only [hxx.1]
    have hA2 : (1.45 + t) * (1.45 + t) - 0.2 ≤ (11.231872 : ℝ) := by linarith only [hxx.2]
    have hAA := sq_bounds ((1.45 + t) * (1.45 + t) - 0.2) (11.129303) (11.231872) (by norm_num) hA1 hA2
    have hr1a : (124.341385 : ℝ) ≤ rho1 (1.45 + t) := by rw [rho1]; linarith only [hAA.1]
    have hr1b : rho1 (1.45 + t) ≤ (126.634949 : ℝ) := by rw [rho1]; linarith only [hAA.2]
    have hs1 := sqrt_approx (rho1 (1.45 + t)) (11.150846) (11.25322) (by norm_num) (by norm_num) (by linarith only [hr1a]) (by linarith only [hr1b])
    have hDE : DE ⟨1.45 + t, 0, 0⟩ 0 qC0 =
        0.25 * Real.log (rho1 (1.45 + t)) * Real.sqrt (rho1 (1.45 + t)) / (2 * (1.45 + t) + 1) :=
      DE_axis_zone1 (1.45 + t) (by linarith only [hx1]) (by linarith only [hx2]) (by linarith only [hr1a])
    have hlga := log_approx (124.341385 : ℝ) (4.82093088) (4.82513089) 7 (731723 / 25600000 : ℝ) (by norm_num) (by rw [abs_le]; norm_num) (by simp only [Finset.sum_range_succ, Finset.sum_range_zero]; norm_num) (by simp only [Finset.sum_range_succ, Finset.sum_range_zero]; norm_num)
    have hlgb := log_approx (126.634949 : ℝ) (4.83920852) (4.84340854) 7 (1365051 / 128000000 : ℝ) (by norm_num) (by rw [abs_le]; norm_num) (by simp only [Finset.sum_range_succ, Finset.sum_range_zero]; norm_num) (by simp only [Finset.sum_range_succ, Finset.sum_range_zero]; norm_num)
    have hL1 : (4.82093088 : ℝ) ≤ Real.log (rho1 (1.45 + t)) :=
      le_trans hlga.1 (Real.log_le_log (by norm_num) hr1a)
    have hL2 : Real.log (rho1 (1.45 + t)) ≤ (4.84340854 : ℝ) :=
      le_trans (Real.log_le_log (rho1_pos _) hr1b) hlgb.2
    have hD1 : (7.731806 : ℝ) ≤ 2 * (1.45 + t) + 1 := by linarith only [hx1]
    have hD2 : 2 * (1.45 + t) + 1 ≤ (7.76221 : ℝ) := by linarith only [hx2]
    have hDEb := de_form_bounds (Real.log (rho1 (1.45 + t))) (Real.sqrt (rho1 (1.45 + t)))
      (2 * (1.45 + t) + 1)
      (4.82093088) (4.84340854) (11.150846) (11.25322) (7.731806) (7.76221) (1.731383) (1.762329)
      hL1 hL2 hs1.1 hs1.2 hD1 hD2 (by norm_num) (by norm_num) (by norm_num) (by norm_num) (by norm_num)
    have hd1 : (0.779122 : ℝ) ≤ DE ⟨1.45 + t, 0, 0⟩ 0 qC0 * 0.45 := by rw [hDE]; linarith only [hDEb.1]
    have hd2 : DE ⟨1.45 + t, 0, 0⟩ 0 qC0 * 0.45 ≤ (0.793049 : ℝ) := by rw [hDE]; linarith only [hDEb.2]
    rw [(by norm_num : (504 : ℕ) = 503 + 1), rayMarchLoop_succ, axis_point t,
      if_neg (not_lt.mpr (by linarith only [hd1] : (0.0001 : ℝ) ≤ DE ⟨1.45 + t, 0, 0⟩ 0 qC0 * 0.45)),
      if_neg (not_lt.mpr h40)]
    exact c4_step9 (t + DE ⟨1.45 + t, 0, 0⟩ 0 qC0 * 0.45)
      (min minD (DE ⟨1.45 + t, 0, 0⟩ 0 qC0 * 0.45))
      (lt_of_le_of_lt (min_le_left _ _) hm) (by linarith only [ht1, hd1]) (by linarith only [ht2, hd2])

theorem c4_step7 : ∀ t minD : ℝ, minD < 0.1 → (1.374481 : ℝ) ≤ t → t ≤ (1.382868 : ℝ) →
    40 < rayMarchLoop 0 qC0 ro0 rd0 505 t minD := by
  intro t minD hm ht1 ht2
  by_cases h40 : 40 < t
  · rw [(by norm_num : (505 : ℕ) = 504 + 1), marchLoop_tail 504 t minD hm h40]
    exact h40
  · push_neg at h40
    have hx1 : (2.824481 : ℝ) ≤ 1.45 + t := by linarith only [ht1]
    have hx2 : 1.45 + t ≤ (2.832868 : ℝ) := by linarith only [ht2]
    have hxx := sq_bounds (1.45 + t) (2.824481) (2.832868) (by norm_num) hx1 hx2
    have hA1 : (7.777692 : ℝ) ≤ (1.45 + t) * (1.45 + t) - 0.2 := by linarith only [hxx.1]
    have hA2 : (1.45 + t) * (1.45 + t) - 0.2 ≤ (7.825142 : ℝ) := by linarith only [hxx.2]
    have hAA := sq_bounds ((1.45 + t) * (1.45 + t) - 0.2) (7.777692) (7.825142) (by norm_num) hA1 hA2
    have hr1a : (60.972492 : ℝ) ≤ rho1 (1.45 + t) := by rw [rho1]; linarith only [hAA.1]
    have hr1b : rho1 (1.45 + t) ≤ (61.712848 : ℝ) := by rw [rho1]; linarith only [hAA.2]
    have hs1 := sqrt_approx (rho1 (1.45 + t)) (7.808488) (7.855753) (by norm_num) (by norm_num) (by linarith only [hr1a]) (by linarith only [hr1b])
    have hDE : DE ⟨1.45 + t, 0, 0⟩ 0 qC0 =
        0.25 * Real.log (rho1 (1.45 + t)) * Real.sqrt (rho1 (1.45 + t)) / (2 * (1.45 + t) + 1) :=
      DE_axis_zone1 (1.45 + t) (by linarith only [hx1]) (by linarith only [hx2]) (by linarith only [hr1a])
    have hlga := log_approx (60.972492 : ℝ) (4.10832281) (4.11252282) 6 (0.0473048125 : ℝ) (by norm_num) (by rw [abs_le]; norm_num) (by simp only [Finset.sum_range_succ, Finset.sum_range_zero]; norm_num) (by simp only [Finset.sum_range_succ, Finset.sum_range_zero]; norm_num)
    have hlgb := log_approx (61.712848 : ℝ) (4.12039214) (4.12459215) 6 (0.03573675 : ℝ) (by norm_num) (by rw [abs_le]; norm_num) (by simp only [Finset.sum_range_succ, Finset.sum_range_zero]; norm_num) (by simp only [Finset.sum_range_succ, Finset.sum_range_zero]; norm_num)
    have hL1 : (4.10832281 : ℝ) ≤ Real.log (rho1 (1.45 + t)) :=
      le_trans hlga.1 (Real.log_le_log (by norm_num) hr1a)
    have hL2 : Real.log (rho1 (1.45 + t)) ≤ (4.12459215 : ℝ) :=
      le_trans (Real.log_le_log (rho1_pos _) hr1b) hlgb.2
    have hD1 : (6.648962 : ℝ) ≤ 2 * (1.45 + t) + 1 := by linarith only [hx1]
    have hD2 : 2 * (1.45 + t) + 1 ≤ (6.665736 : ℝ) := by linarith only [hx2]
    have hDEb := de_form_bounds (Real.log (rho1 (1.45 + t))) (Real.sqrt (rho1 (1.45 + t)))
      (2 * (1.45 + t) + 1)
      (4.10832281) (4.12459215) (7.808488) (7.855753) (6.648962) (6.665736) (1.20316) (1.218303)
      hL1 hL2 hs1.1 hs1.2 hD1 hD2 (by norm_num) (by norm_num) (by norm_num) (by norm_num) (by norm_num)
    have hd1 : (0.541422 : ℝ) ≤ DE ⟨1.45 + t, 0, 0⟩ 0 qC0 * 0.45 := by rw [hDE]; linarith only [hDEb.1]
    have hd2 : DE ⟨1.45 + t, 0, 0⟩ 0 qC0 * 0.45 ≤ (0.548237 : ℝ) := by rw [hDE]; linarith only [hDEb.2]
    rw [(by norm_num : (505 : ℕ) = 504 + 1), rayMarchLoop_succ, axis_point t,
      if_neg (not_lt.mpr (by linarith only [hd1] : (0.0001 : ℝ) ≤ DE ⟨1.45 + t, 0, 0⟩ 0 qC0 * 0.45)),
      if_neg (not_lt.mpr h40)]
    exact c4_step8 (t + DE ⟨1.45 + t, 0, 0⟩ 0 qC0 * 0.45)
      (min minD (DE ⟨1.45 + t, 0, 0⟩ 0 qC0 * 0.45))
      (lt_of_le_of_lt (min_le_left _ _) hm) (by linarith only [ht1, hd1]) (by linarith only [ht2, hd2])

theorem c4_step6 : ∀ t minD : ℝ, minD < 0.1 → (0.986898 : ℝ) ≤ t → t ≤ (0.991717 : ℝ) →
    40 < rayMarchLoop 0 qC0 ro0 rd0 506 t minD := by
  intro t minD hm ht1 ht2
  by_cases h40 : 40 < t
  · rw [(by norm_num : (506 : ℕ) = 505 + 1), marchLoop_tail 505 t minD hm h40]
    exact h40
  · push_neg at h40
    have hx1 : (2.436898 : ℝ) ≤ 1.45 + t := by linarith only [ht1]
    have hx2 : 1.45 + t ≤ (2.441717 : ℝ) := by linarith only [ht2]
    have hxx := sq_bounds (1.45 + t) (2.436898) (2.441717) (by norm_num) hx1 hx2
    have hA1 : (5.738471 : ℝ) ≤ (1.45 + t) * (1.45 + t) - 0.2 := by linarith only [hxx.1]
    have hA2 : (1.45 + t) * (1.45 + t) - 0.2 ≤ (5.761982 : ℝ) := by linarith only [hxx.2]
    have hAA := sq_bounds ((1.45 + t) * (1.45 + t) - 0.2) (5.738471) (5.761982) (by norm_num) hA1 hA2
    have hr1a : (33.410049 : ℝ) ≤ rho1 (1.45 + t) := by rw [rho1]; linarith only [hAA.1]
    have hr1b : rho1 (1.45 + t) ≤ (33.680437 : ℝ) := by rw [rho1]; linarith only [hAA.2]
    have hs1 := sqrt_approx (rho1 (1.45 + t)) (5.780142) (5.803485) (by norm_num) (by norm_num) (by linarith only [hr1a]) (by linarith only [hr1b])
    have hDE : DE ⟨1.45 + t, 0, 0⟩ 0 qC0 =
        0.25 * Real.log (rho1 (1.45 + t)) * Real.sqrt (rho1 (1.45 + t)) / (2 * (1.45 + t) + 1) :=
      DE_axis_zone1 (1.45 + t) (by linarith only [hx1]) (by linarith only [hx2]) (by linarith only [hr1a])
    have hlga := log_approx (33.410049 : ℝ) (3.50675672) (3.51095673) 5 (-0.04406403125 : ℝ) (by norm_num) (by rw [abs_le]; norm_num) (by simp only [Finset.sum_range_succ, Finset.sum_range_zero]; norm_num) (by simp only [Finset.sum_range_succ, Finset.sum_range_zero]; norm_num)
    have hlgb := log_approx (33.680437 : ℝ) (3.51481716) (3.51901717) 5 (-0.05251365625 : ℝ) (by norm_num) (by rw [abs_le]; norm_num) (by simp only [Finset.sum_range_succ, Finset.sum_range_zero]; norm_num) (by simp only [Finset.sum_range_succ, Finset.sum_range_zero]; norm_num)
    have hL1 : (3.50675672 : ℝ) ≤ Real.log (rho1 (1.45 + t)) :=
      le_trans hlga.1 (Real.log_le_log (by norm_num) hr1a)
    have hL2 : Real.log (rho1 (1.45 + t)) ≤ (3.51901717 : ℝ) :=
      le_trans (Real.log_le_log (rho1_pos _) hr1b) hlgb.2
    have hD1 : (5.873796 : ℝ) ≤ 2 * (1.45 + t) + 1 := by linarith only [hx1]
    have hD2 : 2 * (1.45 + t) + 1 ≤ (5.883434 : ℝ) := by linarith only [hx2]
    have hDEb := de_form_bounds (Real.log (rho1 (1.45 + t))) (Real.sqrt (rho1 (1.45 + t)))
      (2 * (1.45 + t) + 1)
      (3.50675672) (3.51901717) (5.780142) (5.803485) (5.873796) (5.883434) (0.861297) (0.869224)
      hL1 hL2 hs1.1 hs1.2 hD1 hD2 (by norm_num) (by norm_num) (by norm_num) (by norm_num) (by norm_num)
    have hd1 : (0.387583 : ℝ) ≤ DE ⟨1.45 + t, 0, 0⟩ 0 qC0 * 0.45 := by rw [hDE]; linarith only [hDEb.1]
    have hd2 : DE ⟨1.45 + t, 0, 0⟩ 0 qC0 * 0.45 ≤ (0.391151 : ℝ) := by rw [hDE]; linarith only [hDEb.2]
    rw [(by norm_num : (506 : ℕ) = 505 + 1), rayMarchLoop_succ, axis_point t,
      if_neg (not_lt.mpr (by linarith only [hd1] : (0.0001 : ℝ) ≤ DE ⟨1.45 + t, 0, 0⟩ 0 qC0 * 0.45)),
      if_neg (not_lt.mpr h40)]
    exact c4_step7 (t + DE ⟨1.45 + t, 0, 0⟩ 0 qC0 * 0.45)
      (min minD (DE ⟨1.45 + t, 0, 0⟩ 0 qC0 * 0.45))
      (lt_of_le_of_lt (min_le_left _ _) hm) (by linarith only [ht1, hd1]) (by linarith only [ht2, hd2])

theorem c4_step5 : ∀ t minD : ℝ, minD < 0.1 → (0.70191 : ℝ) ≤ t → t ≤ (0.704743 : ℝ) →
    40 < rayMarchLoop 0 qC0 ro0 rd0 507 t minD := by
  intro t minD hm ht1 ht2
  by_cases h40 : 40 < t
  · rw [(by norm_num : (507 : ℕ) = 506 + 1), marchLoop_tail 506 t minD hm h40]
    exact h40
  · push_neg at h40
    have hx1 : (2.15191 : ℝ) ≤ 1.45 + t := by linarith only [ht1]
    have hx2 : 1.45 + t ≤ (2.154743 : ℝ) := by linarith only [ht2]
    have hxx := sq_bounds (1.45 + t) (2.15191) (2.154743) (by norm_num) hx1 hx2
    have hA1 : (4.430716 : ℝ) ≤ (1.45 + t) * (1.45 + t) - 0.2 := by linarith only [hxx.1]
    have hA2 : (1.45 + t) * (1.45 + t) - 0.2 ≤ (4.442918 : ℝ) := by linarith only [hxx.2]
    have hAA := sq_bounds ((1.45 + t) * (1.45 + t) - 0.2) (4.430716) (4.442918) (by norm_num) hA1 hA2
    have hr1a : (20.111244 : ℝ) ≤ rho1 (1.45 + t) := by rw [rho1]; linarith only [hAA.1]
    have hr1b : rho1 (1.45 + t) ≤ (20.219521 : ℝ) := by rw [rho1]; linarith only [hAA.2]
    have hs1 := sqrt_approx (rho1 (1.45 + t)) (4.484556) (4.496613) (by norm_num) (by norm_num) (by linarith only [hr1a]) (by linarith only [hr1b])
    have hDE : DE ⟨1.45 + t, 0, 0⟩ 0 qC0 =
        0.25 * Real.log (rho1 (1.45 + t)) * Real.sqrt (rho1 (1.45 + t)) / (2 * (1.45 + t) + 1) :=
      DE_axis_zone1 (1.45 + t) (by linarith only [hx1]) (by linarith only [hx2]) (by linarith only [hr1a])
    have hlga := log_approx (20.111244 : ℝ) (2.9992184) (3.00341841) 4 (-0.25695275 : ℝ) (by norm_num) (by rw [abs_le]; norm_num) (by simp only [Finset.sum_range_succ, Finset.sum_range_zero]; norm_num) (by simp only [Finset.sum_range_succ, Finset.sum_range_zero]; norm_num)
    have hlgb := log_approx (20.219521 : ℝ) (3.00459428) (3.00879429) 4 (-0.2637200625 : ℝ) (by norm_num) (by rw [abs_le]; norm_num) (by simp only [Finset.sum_range_succ, Finset.sum_range_zero]; norm_num) (by simp only [Finset.sum_range_succ, Finset.sum_range_zero]; norm_num)
    have hL1 : (2.9992184 : ℝ) ≤ Real.log (rho1 (1.45 + t)) :=
      le_trans hlga.1 (Real.log_le_log (by norm_num) hr1a)
    have hL2 : Real.log (rho1 (1.45 + t)) ≤ (3.00879429 : ℝ) :=
      le_trans (Real.log_le_log (rho1_pos _) hr1b) hlgb.2
    have hD1 : (5.30382 : ℝ) ≤ 2 * (1.45 + t) + 1 := by linarith only [hx1]
    have hD2 : 2 * (1.45 + t) + 1 ≤ (5.309486 : ℝ) := by linarith only [hx2]
    have hDEb := de_form_bounds (Real.log (rho1 (1.45 + t))) (Real.sqrt (rho1 (1.45 + t)))
      (2 * (1.45 + t) + 1)
      (2.9992184) (3.00879429) (4.484556) (4.496613) (5.30382) (5.309486) (0.633308) (0.637719)
      hL1 hL2 hs1.1 hs1.2 hD1 hD2 (by norm_num) (by norm_num) (by norm_num) (by norm_num) (by norm_num)
    have hd1 : (0.284988 : ℝ) ≤ DE ⟨1.45 + t, 0, 0⟩ 0 qC0 * 0.45 := by rw [hDE]; linarith only [hDEb.1]
    have hd2 : DE ⟨1.45 + t, 0, 0⟩ 0 qC0 * 0.45 ≤ (0.286974 : ℝ) := by rw [hDE]; linarith only [hDEb.2]
    rw [(by norm_num : (507 : ℕ) = 506 + 1), rayMarchLoop_succ, axis_point t,
      if_neg (not_lt.mpr (by linarith only [hd1] : (0.0001 : ℝ) ≤ DE ⟨1.45 + t, 0, 0⟩ 0 qC0 * 0.45)),
      if_neg (not_lt.mpr h40)]
    exact c4_step6 (t + DE ⟨1.45 + t, 0, 0⟩ 0 qC0 * 0.45)
      (min minD (DE ⟨1.45 + t, 0, 0⟩ 0 qC0 * 0.45))
      (lt_of_le_of_lt (min_le_left _ _) hm) (by linarith only [ht1, hd1]) (by linarith only [ht2, hd2])

theorem c4_step4 : ∀ t minD : ℝ, minD < 0.1 → (0.490347 : ℝ) ≤ t → t ≤ (0.491742 : ℝ) →
    40 < rayMarchLoop 0 qC0 ro0 rd0 508 t minD := by
  intro t minD hm ht1 ht2
  by_cases h40 : 40 < t
  · rw [(by norm_num : (508 : ℕ) = 507 + 1), marchLoop_tail 507 t minD hm h40]
    exact h40
  · push_neg at h40
    have hx1 : (1.940347 : ℝ) ≤ 1.45 + t := by linarith only [ht1]
    have hx2 : 1.45 + t ≤ (1.941742 : ℝ) := by linarith only [ht2]
    have hxx := sq_bounds (1.45 + t) (1.940347) (1.941742) (by norm_num) hx1 hx2
    have hA1 : (3.564946 : ℝ) ≤ (1.45 + t) * (1.45 + t) - 0.2 := by linarith only [hxx.1]
    have hA2 : (1.45 + t) * (1.45 + t) - 0.2 ≤ (3.570362 : ℝ) := by linarith only [hxx.2]
    have hAA := sq_bounds ((1.45 + t) * (1.45 + t) - 0.2) (3.564946) (3.570362) (by norm_num) hA1 hA2
    have hr1a : (13.188839 : ℝ) ≤ rho1 (1.45 + t) := by rw [rho1]; linarith only [hAA.1]
    have hr1b : rho1 (1.45 + t) ≤ (13.227485 : ℝ) := by rw [rho1]; linarith only [hAA.2]
    have hs1 := sqrt_approx (rho1 (1.45 + t)) (3.631644) (3.636961) (by norm_num) (by norm_num) (by linarith only [hr1a]) (by linarith only [hr1b])
    have hu1 : (12.028839 : ℝ) ≤ ((1.45 + t) * (1.45 + t) - 0.2) * ((1.45 + t) * (1.45 + t) - 0.2) - 0.68 := by linarith only [hAA.1]
    have hu2 : ((1.45 + t) * (1.45 + t) - 0.2) * ((1.45 + t) * (1.45 + t) - 0.2) - 0.68 ≤ (12.067485 : ℝ) := by linarith only [hAA.2]
    have huu := sq_bounds (((1.45 + t) * (1.45 + t) - 0.2) * ((1.45 + t) * (1.45 + t) - 0.2) - 0.68) (12.028839) (12.067485) (by norm_num) hu1 hu2
    have hv1 : (3.2519568 : ℝ) ≤ 0.8 * ((1.45 + t) * (1.45 + t) - 0.2) + 0.4 := by linarith only [hA1]
    have hv2 : 0.8 * ((1.45 + t) * (1.45 + t) - 0.2) + 0.4 ≤ (3.2562896 : ℝ) := by linarith only [hA2]
    have hvv := sq_bounds (0.8 * ((1.45 + t) * (1.45 + t) - 0.2) + 0.4) (3.2519568) (3.2562896) (by norm_num) hv1 hv2
    have hr2a : (176.418636 : ℝ) ≤ rho2 (1.45 + t) := by rw [rho2]; linarith only [huu.1, hvv.1]
    have hr2b : rho2 (1.45 + t) ≤ (177.434461 : ℝ) := by rw [rho2]; linarith only [huu.2, hvv.2]
    have hDE : DE ⟨1.45 + t, 0, 0⟩ 0 qC0 =
        0.25 * Real.log (rho2 (1.45 + t)) * Real.sqrt (rho2 (1.45 + t)) /
          (2 * Real.sqrt (rho1 (1.45 + t)) * (2 * (1.45 + t) + 1) + 1) :=
      DE_axis_zone2 (1.45 + t) (by linarith only [hx1]) (by linarith only [hx2]) (by linarith only [hr1b]) (by linarith only [hr2a])
    have hs2 := sqrt_approx (rho2 (1.45 + t)) (13.282267) (13.320453) (by norm_num) (by norm_num) (by linarith only [hr2a]) (by linarith only [hr2b])
    have hlga := log_approx (176.418636 : ℝ) (5.17096536) (5.17516537) 8 (0.310864703125 : ℝ) (by norm_num) (by rw [abs_le]; norm_num) (by simp only [Finset.sum_range_succ, Finset.sum_range_zero]; norm_num) (by simp only [Finset.sum_range_succ, Finset.sum_range_zero]; norm_num)
    have hlgb := log_approx (177.434461 : ℝ) (5.17669073) (5.18089075) 8 (78565539 / 256000000 : ℝ) (by norm_num) (by rw [abs_le]; norm_num) (by simp only [Finset.sum_range_succ, Finset.sum_range_zero]; norm_num) (by simp only [Finset.sum_range_succ, Finset.sum_range_zero]; norm_num)
    have hL1 : (5.17096536 : ℝ) ≤ Real.log (rho2 (1.45 + t)) :=
      le_trans hlga.1 (Real.log_le_log (by norm_num) hr2a)
    have hL2 : Real.log (rho2 (1.45 + t)) ≤ (5.18089075 : ℝ) :=
      le_trans (Real.log_le_log (rho2_pos _) hr2b) hlgb.2
    have hc1 : (7.263288 : ℝ) ≤ 2 * Real.sqrt (rho1 (1.45 + t)) := by linarith only [hs1.1]
    have hc2 : 2 * Real.sqrt (rho1 (1.45 + t)) ≤ (7.273922 : ℝ) := by linarith only [hs1.2]
    have hw1 : (4.880694 : ℝ) ≤ 2 * (1.45 + t) + 1 := by linarith only [hx1]
    have hw2 : 2 * (1.45 + t) + 1 ≤ (4.883484 : ℝ) := by linarith only [hx2]
    have hPP := mul_interval_bounds (2 * Real.sqrt (rho1 (1.45 + t))) (2 * (1.45 + t) + 1)
      (7.263288) (7.273922) (4.880694) (4.883484)
      (by norm_num) (by norm_num) hc1 hc2 hw1 hw2
    have hD1 : (36.449886 : ℝ) ≤ 2 * Real.sqrt (rho1 (1.45 + t)) * (2 * (1.45 + t) + 1) + 1 := by linarith only [hPP.1]
    have hD2 : 2 * Real.sqrt (rho1 (1.45 + t)) * (2 * (1.45 + t) + 1) + 1 ≤ (36.522082 : ℝ) := by linarith only [hPP.2]
    have hDEb := de_form_bounds (Real.log (rho2 (1.45 + t))) (Real.sqrt (rho2 (1.45 + t)))
      (2 * Real.sqrt (rho1 (1.45 + t)) * (2 * (1.45 + t) + 1) + 1)
      (5.17096536) (5.18089075) (13.282267) (13.320453) (36.449886) (36.522082) (0.470141) (0.473334)
      hL1 hL2 hs2.1 hs2.2 hD1 hD2 (by norm_num) (by norm_num) (by norm_num) (by norm_num) (by norm_num)
    have hd1 : (0.211563 : ℝ) ≤ DE ⟨1.45 + t, 0, 0⟩ 0 qC0 * 0.45 := by rw [hDE]; linarith only [hDEb.1]
    have hd2 : DE ⟨1.45 + t, 0, 0⟩ 0 qC0 * 0.45 ≤ (0.213001 : ℝ) := by rw [hDE]; linarith only [hDEb.2]
    rw [(by norm_num : (508 : ℕ) = 507 + 1), rayMarchLoop_succ, axis_point t,
      if_neg (not_lt.mpr (by linarith only [hd1] : (0.0001 : ℝ) ≤ DE ⟨1.45 + t, 0, 0⟩ 0 qC0 * 0.45)),
      if_neg (not_lt.mpr h40)]
    exact c4_step5 (t + DE ⟨1.45 + t, 0, 0⟩ 0 qC0 * 0.45)
      (min minD (DE ⟨1.45 + t, 0, 0⟩ 0 qC0 * 0.45))
      (lt_of_le_of_lt (min_le_left _ _) hm) (by linarith only [ht1, hd1]) (by linarith only [ht2, hd2])

theorem c4_step3 : ∀ t minD : ℝ, minD < 0.1 → (0.32598 : ℝ) ≤ t → t ≤ (0.326678 : ℝ) →
    40 < rayMarchLoop 0 qC0 ro0 rd0 509 t minD := by
  intro t minD hm ht1 ht2
  by_cases h40 : 40 < t
  · rw [(by norm_num : (509 : ℕ) = 508 + 1), marchLoop_tail 508 t minD hm h40]
    exact h40
  · push_neg at h40
    have hx1 : (1.77598 : ℝ) ≤ 1.45 + t := by linarith only [ht1]
    have hx2 : 1.45 + t ≤ (1.776678 : ℝ) := by linarith only [ht2]
    have hxx := sq_bounds (1.45 + t) (1.77598) (1.776678) (by norm_num) hx1 hx2
    have hA1 : (2.954104 : ℝ) ≤ (1.45 + t) * (1.45 + t) - 0.2 := by linarith only [hxx.1]
    have hA2 : (1.45 + t) * (1.45 + t) - 0.2 ≤ (2.956585 : ℝ) := by linarith only [hxx.2]
    have hAA := sq_bounds ((1.45 + t) * (1.45 + t) - 0.2) (2.954104) (2.956585) (by norm_num) hA1 hA2
    have hr1a : (9.20673 : ℝ) ≤ rho1 (1.45 + t) := by rw [rho1]; linarith only [hAA.1]
    have hr1b : rho1 (1.45 + t) ≤ (9.221395 : ℝ) := by rw [rho1]; linarith only [hAA.2]
    have hs1 := sqrt_approx (rho1 (1.45 + t)) (3.034259) (3.036675) (by norm_num) (by norm_num) (by linarith only [hr1a]) (by linarith only [hr1b])
    have hu1 : (8.04673 : ℝ) ≤ ((1.45 + t) * (1.45 + t) - 0.2) * ((1.45 + t) * (1.45 + t) - 0.2) - 0.68 := by linarith only [hAA.1]
    have hu2 : ((1.45 + t) * (1.45 + t) - 0.2) * ((1.45 + t) * (1.45 + t) - 0.2) - 0.68 ≤ (8.061395 : ℝ) := by linarith only [hAA.2]
    have huu := sq_bounds (((1.45 + t) * (1.45 + t) - 0.2) * ((1.45 + t) * (1.45 + t) - 0.2) - 0.68) (8.04673) (8.061395) (by norm_num) hu1 hu2
    have hv1 : (2.7632832 : ℝ) ≤ 0.8 * ((1.45 + t) * (1.45 + t) - 0.2) + 0.4 := by linarith only [hA1]
    have hv2 : 0.8 * ((1.45 + t) * (1.45 + t) - 0.2) + 0.4 ≤ (2.765268 : ℝ) := by linarith only [hA2]
    have hvv := sq_bounds (0.8 * ((1.45 + t) * (1.45 + t) - 0.2) + 0.4) (2.7632832) (2.765268) (by norm_num) hv1 hv2
    have hr2a : (87.657065 : ℝ) ≤ rho2 (1.45 + t) := by rw [rho2]; linarith only [huu.1, hvv.1]
    have hr2b : rho2 (1.45 + t) ≤ (87.926211 : ℝ) := by rw [rho2]; linarith only [huu.2, hvv.2]
    have hDE : DE ⟨1.45 + t, 0, 0⟩ 0 qC0 =
        0.25 * Real.log (rho2 (1.45 + t)) * Real.sqrt (rho2 (1.45 + t)) /
          (2 * Real.sqrt (rho1 (1.45 + t)) * (2 * (1.45 + t) + 1) + 1) :=
      DE_axis_zone2 (1.45 + t) (by linarith only [hx1]) (by linarith only [hx2]) (by linarith only [hr1b]) (by linarith only [hr2a])
    have hs2 := sqrt_approx (rho2 (1.45 + t)) (9.362535) (9.376898) (by norm_num) (by norm_num) (by linarith only [hr2a]) (by linarith only [hr2b])
    have hlga := log_approx (87.657065 : ℝ) (4.47155666) (4.47575667) 7 (8068587 / 25600000 : ℝ) (by norm_num) (by rw [abs_le]; norm_num) (by simp only [Finset.sum_range_succ, Finset.sum_range_zero]; norm_num) (by simp only [Finset.sum_range_succ, Finset.sum_range_zero]; norm_num)
    have hlgb := log_approx (87.926211 : ℝ) (4.47461302) (4.47881304) 7 (40073789 / 128000000 : ℝ) (by norm_num) (by rw [abs_le]; norm_num) (by simp only [Finset.sum_range_succ, Finset.sum_range_zero]; norm_num) (by simp only [Finset.sum_range_succ, Finset.sum_range_zero]; norm_num)
    have hL1 : (4.47155666 : ℝ) ≤ Real.log (rho2 (1.45 + t)) :=
      le_trans hlga.1 (Real.log_le_log (by norm_num) hr2a)
    have hL2 : Real.log (rho2 (1.45 + t)) ≤ (4.47881304 : ℝ) :=
      le_trans (Real.log_le_log (rho2_pos _) hr2b) hlgb.2
    have hc1 : (6.068518 : ℝ) ≤ 2 * Real.sqrt (rho1 (1.45 + t)) := by linarith only [hs1.1]
    have hc2 : 2 * Real.sqrt (rho1 (1.45 + t)) ≤ (6.07335 : ℝ) := by linarith only [hs1.2]
    have hw1 : (4.55196 : ℝ) ≤ 2 * (1.45 + t) + 1 := by linarith only [hx1]
    have hw2 : 2 * (1.45 + t) + 1 ≤ (4.553356 : ℝ) := by linarith only [hx2]
    have hPP := mul_interval_bounds (2 * Real.sqrt (rho1 (1.45 + t))) (2 * (1.45 + t) + 1)
      (6.068518) (6.07335) (4.55196) (4.553356)
      (by norm_num) (by norm_num) hc1 hc2 hw1 hw2
    have hD1 : (28.623651 : ℝ) ≤ 2 * Real.sqrt (rho1 (1.45 + t)) * (2 * (1.45 + t) + 1) + 1 := by linarith only [hPP.1]
    have hD2 : 2 * Real.sqrt (rho1 (1.45 + t)) * (2 * (1.45 + t) + 1) + 1 ≤ (28.654125 : ℝ) := by linarith only [hPP.2]
    have hDEb := de_form_bounds (Real.log (rho2 (1.45 + t))) (Real.sqrt (rho2 (1.45 + t)))
      (2 * Real.sqrt (rho1 (1.45 + t)) * (2 * (1.45 + t) + 1) + 1)
      (4.47155666) (4.47881304) (9.362535) (9.376898) (28.623651) (28.654125) (0.365262) (0.366807)
      hL1 hL2 hs2.1 hs2.2 hD1 hD2 (by norm_num) (by norm_num) (by norm_num) (by norm_num) (by norm_num)
    have hd1 : (0.164367 : ℝ) ≤ DE ⟨1.45 + t, 0, 0⟩ 0 qC0 * 0.45 := by rw [hDE]; linarith only [hDEb.1]
    have hd2 : DE ⟨1.45 + t, 0, 0⟩ 0 qC0 * 0.45 ≤ (0.165064 : ℝ) := by rw [hDE]; linarith only [hDEb.2]
    rw [(by norm_num : (509 : ℕ) = 508 + 1), rayMarchLoop_succ, axis_point t,
      if_neg (not_lt.mpr (by linarith only [hd1] : (0.0001 : ℝ) ≤ DE ⟨1.45 + t, 0, 0⟩ 0 qC0 * 0.45)),
      if_neg (not_lt.mpr h40)]
    exact c4_step4 (t + DE ⟨1.45 + t, 0, 0⟩ 0 qC0 * 0.45)
      (min minD (DE ⟨1.45 + t, 0, 0⟩ 0 qC0 * 0.45))
      (lt_of_le_of_lt (min_le_left _ _) hm) (by linarith only [ht1, hd1]) (by linarith only [ht2, hd2])

theorem c4_step2 : ∀ t minD : ℝ, minD < 0.1 → (0.195175 : ℝ) ≤ t → t ≤ (0.195508 : ℝ) →
    40 < rayMarchLoop 0 qC0 ro0 rd0 510 t minD := by
  intro t minD hm ht1 ht2
  by_cases h40 : 40 < t
  · rw [(by norm_num : (510 : ℕ) = 509 + 1), marchLoop_tail 509 t minD hm h40]
    exact h40
  · push_neg at h40
    have hx1 : (1.645175 : ℝ) ≤ 1.45 + t := by linarith only [ht1]
    have hx2 : 1.45 + t ≤ (1.645508 : ℝ) := by linarith only [ht2]
    have hxx := sq_bounds (1.45 + t) (1.645175) (1.645508) (by norm_num) hx1 hx2
    have hA1 : (2.5066 : ℝ) ≤ (1.45 + t) * (1.45 + t) - 0.2 := by linarith only [hxx.1]
    have hA2 : (1.45 + t) * (1.45 + t) - 0.2 ≤ (2.507697 : ℝ) := by linarith only [hxx.2]
    have hAA := sq_bounds ((1.45 + t) * (1.45 + t) - 0.2) (2.5066) (2.507697) (by norm_num) hA1 hA2
    have hr1a : (6.763043 : ℝ) ≤ rho1 (1.45 + t) := by rw [rho1]; linarith only [hAA.1]
    have hr1b : rho1 (1.45 + t) ≤ (6.768545 : ℝ) := by rw [rho1]; linarith only [hAA.2]
    have hs1 := sqrt_approx (rho1 (1.45 + t)) (2.600585) (2.601643) (by norm_num) (by norm_num) (by linarith only [hr1a]) (by linarith only [hr1b])
    have hu1 : (5.603043 : ℝ) ≤ ((1.45 + t) * (1.45 + t) - 0.2) * ((1.45 + t) * (1.45 + t) - 0.2) - 0.68 := by linarith only [hAA.1]
    have hu2 : ((1.45 + t) * (1.45 + t) - 0.2) * ((1.45 + t) * (1.45 + t) - 0.2) - 0.68 ≤ (5.608545 : ℝ) := by linarith only [hAA.2]
    have huu := sq_bounds (((1.45 + t) * (1.45 + t) - 0.2) * ((1.45 + t) * (1.45 + t) - 0.2) - 0.68) (5.603043) (5.608545) (by norm_num) hu1 hu2
    have hv1 : (2.40528 : ℝ) ≤ 0.8 * ((1.45 + t) * (1.45 + t) - 0.2) + 0.4 := by linarith only [hA1]
    have hv2 : 0.8 * ((1.45 + t) * (1.45 + t) - 0.2) + 0.4 ≤ (2.4061576 : ℝ) := by linarith only [hA2]
    have hvv := sq_bounds (0.8 * ((1.45 + t) * (1.45 + t) - 0.2) + 0.4) (2.40528) (2.4061576) (by norm_num) hv1 hv2
    have hr2a : (48.750206 : ℝ) ≤ rho2 (1.45 + t) := by rw [rho2]; linarith only [huu.1, hvv.1]
    have hr2b : rho2 (1.45 + t) ≤ (48.824561 : ℝ) := by rw [rho2]; linarith only [huu.2, hvv.2]
    have hDE : DE ⟨1.45 + t, 0, 0⟩ 0 qC0 =
        0.25 * Real.log (rho2 (1.45 + t)) * Real.sqrt (rho2 (1.45 + t)) /
          (2 * Real.sqrt (rho1 (1.45 + t)) * (2 * (1.45 + t) + 1) + 1) :=
      DE_axis_zone2 (1.45 + t) (by linarith only [hx1]) (by linarith only [hx2]) (by linarith only [hr1b]) (by linarith only [hr2a])
    have hs2 := sqrt_approx (rho2 (1.45 + t)) (6.982134) (6.987458) (by norm_num) (by norm_num) (by linarith only [hr2a]) (by linarith only [hr2b])
    have hlga := log_approx (48.750206 : ℝ) (3.8846478) (3.88884781) 6 (0.23827803125 : ℝ) (by norm_num) (by rw [abs_le]; norm_num) (by simp only [Finset.sum_range_succ, Finset.sum_range_zero]; norm_num) (by simp only [Finset.sum_range_succ, Finset.sum_range_zero]; norm_num)
    have hlgb := log_approx (48.824561 : ℝ) (3.88617071) (3.89037072) 6 (0.237116234375 : ℝ) (by norm_num) (by rw [abs_le]; norm_num) (by simp only [Finset.sum_range_succ, Finset.sum_range_zero]; norm_num) (by simp only [Finset.sum_range_succ, Finset.sum_range_zero]; norm_num)
    have hL1 : (3.8846478 : ℝ) ≤ Real.log (rho2 (1.45 + t)) :=
      le_trans hlga.1 (Real.log_le_log (by norm_num) hr2a)
    have hL2 : Real.log (rho2 (1.45 + t)) ≤ (3.89037072 : ℝ) :=
      le_trans (Real.log_le_log (rho2_pos _) hr2b) hlgb.2
    have hc1 : (5.20117 : ℝ) ≤ 2 * Real.sqrt (rho1 (1.45 + t)) := by linarith only [hs1.1]
    have hc2 : 2 * Real.sqrt (rho1 (1.45 + t)) ≤ (5.203286 : ℝ) := by linarith only [hs1.2]
    have hw1 : (4.29035 : ℝ) ≤ 2 * (1.45 + t) + 1 := by linarith only [hx1]
    have hw2 : 2 * (1.45 + t) + 1 ≤ (4.291016 : ℝ) := by linarith only [hx2]
    have hPP := mul_interval_bounds (2 * Real.sqrt (rho1 (1.45 + t))) (2 * (1.45 + t) + 1)
      (5.20117) (5.203286) (4.29035) (4.291016)
      (by norm_num) (by norm_num) hc1 hc2 hw1 hw2
    have hD1 : (23.314839 : ℝ) ≤ 2 * Real.sqrt (rho1 (1.45 + t)) * (2 * (1.45 + t) + 1) + 1 := by linarith only [hPP.1]
    have hD2 : 2 * Real.sqrt (rho1 (1.45 + t)) * (2 * (1.45 + t) + 1) + 1 ≤ (23.327384 : ℝ) := by linarith only [hPP.2]
    have hDEb := de_form_bounds (Real.log (rho2 (1.45 + t))) (Real.sqrt (rho2 (1.45 + t)))
      (2 * Real.sqrt (rho1 (1.45 + t)) * (2 * (1.45 + t) + 1) + 1)
      (3.8846478) (3.89037072) (6.982134) (6.987458) (23.314839) (23.327384) (0.290679) (0.291487)
      hL1 hL2 hs2.1 hs2.2 hD1 hD2 (by norm_num) (by norm_num) (by norm_num) (by norm_num) (by norm_num)
    have hd1 : (0.130805 : ℝ) ≤ DE ⟨1.45 + t, 0, 0⟩ 0 qC0 * 0.45 := by rw [hDE]; linarith only [hDEb.1]
    have hd2 : DE ⟨1.45 + t, 0, 0⟩ 0 qC0 * 0.45 ≤ (0.13117 : ℝ) := by rw [hDE]; linarith only [hDEb.2]
    rw [(by norm_num : (510 : ℕ) = 509 + 1), rayMarchLoop_succ, axis_point t,
      if_neg (not_lt.mpr (by linarith only [hd1] : (0.0001 : ℝ) ≤ DE ⟨1.45 + t, 0, 0⟩ 0 qC0 * 0.45)),
      if_neg (not_lt.mpr h40)]
    exact c4_step3 (t + DE ⟨1.45 + t, 0, 0⟩ 0 qC0 * 0.45)
      (min minD (DE ⟨1.45 + t, 0, 0⟩ 0 qC0 * 0.45))
      (lt_of_le_of_lt (min_le_left _ _) hm) (by linarith only [ht1, hd1]) (by linarith only [ht2, hd2])

theorem c4_step1 : ∀ t minD : ℝ, minD < 0.1 → (0.088651 : ℝ) ≤ t → t ≤ (0.088777 : ℝ) →
    40 < rayMarchLoop 0 qC0 ro0 rd0 511 t minD := by
  intro t minD hm ht1 ht2
  by_cases h40 : 40 < t
  · rw [(by norm_num : (511 : ℕ) = 510 + 1), marchLoop_tail 510 t minD hm h40]
    exact h40
  · push_neg at h40
    have hx1 : (1.538651 : ℝ) ≤ 1.45 + t := by linarith only [ht1]
    have hx2 : 1.45 + t ≤ (1.538777 : ℝ) := by linarith only [ht2]
    have hxx := sq_bounds (1.45 + t) (1.538651) (1.538777) (by norm_num) hx1 hx2
    have hA1 : (2.167446 : ℝ) ≤ (1.45 + t) * (1.45 + t) - 0.2 := by linarith only [hxx.1]
    have hA2 : (1.45 + t) * (1.45 + t) - 0.2 ≤ (2.167835 : ℝ) := by linarith only [hxx.2]
    have hAA := sq_bounds ((1.45 + t) * (1.45 + t) - 0.2) (2.167446) (2.167835) (by norm_num) hA1 hA2
    have hr1a : (5.177822 : ℝ) ≤ rho1 (1.45 + t) := by rw [rho1]; linarith only [hAA.1]
    have hr1b : rho1 (1.45 + t) ≤ (5.179509 : ℝ) := by rw [rho1]; linarith only [hAA.2]
    have hs1 := sqrt_approx (rho1 (1.45 + t)) (2.275482) (2.275854) (by norm_num) (by norm_num) (by linarith only [hr1a]) (by linarith only [hr1b])
    have hu1 : (4.017822 : ℝ) ≤ ((1.45 + t) * (1.45 + t) - 0.2) * ((1.45 + t) * (1.45 + t) - 0.2) - 0.68 := by linarith only [hAA.1]
    have hu2 : ((1.45 + t) * (1.45 + t) - 0.2) * ((1.45 + t) * (1.45 + t) - 0.2) - 0.68 ≤ (4.019509 : ℝ) := by linarith only [hAA.2]
    have huu := sq_bounds (((1.45 + t) * (1.45 + t) - 0.2) * ((1.45 + t) * (1.45 + t) - 0.2) - 0.68) (4.017822) (4.019509) (by norm_num) hu1 hu2
    have hv1 : (2.1339568 : ℝ) ≤ 0.8 * ((1.45 + t) * (1.45 + t) - 0.2) + 0.4 := by linarith only [hA1]
    have hv2 : 0.8 * ((1.45 + t) * (1.45 + t) - 0.2) + 0.4 ≤ (2.134268 : ℝ) := by linarith only [hA2]
    have hvv := sq_bounds (0.8 * ((1.45 + t) * (1.45 + t) - 0.2) + 0.4) (2.1339568) (2.134268) (by norm_num) hv1 hv2
    have hr2a : (29.804208 : ℝ) ≤ rho2 (1.45 + t) := by rw [rho2]; linarith only [huu.1, hvv.1]
    have hr2b : rho2 (1.45 + t) ≤ (29.821753 : ℝ) := by rw [rho2]; linarith only [huu.2, hvv.2]
    have hDE : DE ⟨1.45 + t, 0, 0⟩ 0 qC0 =
        0.25 * Real.log (rho2 (1.45 + t)) * Real.sqrt (rho2 (1.45 + t)) /
          (2 * Real.sqrt (rho1 (1.45 + t)) * (2 * (1.45 + t) + 1) + 1) :=
      DE_axis_zone2 (1.45 + t) (by linarith only [hx1]) (by linarith only [hx2]) (by linarith only [hr1b]) (by linarith only [hr2a])
    have hs2 := sqrt_approx (rho2 (1.45 + t)) (5.459323) (5.46093) (by norm_num) (by norm_num) (by linarith only [hr2a]) (by linarith only [hr2b])
    have hlga := log_approx (29.804208 : ℝ) (3.3925496) (3.39674962) 5 (0.0686185 : ℝ) (by norm_num) (by rw [abs_le]; norm_num) (by simp only [Finset.sum_range_succ, Finset.sum_range_zero]; norm_num) (by simp only [Finset.sum_range_succ, Finset.sum_range_zero]; norm_num)
    have hlgb := log_approx (29.821753 : ℝ) (3.39313811) (3.39733812) 5 (0.06807021875 : ℝ) (by norm_num) (by rw [abs_le]; norm_num) (by simp only [Finset.sum_range_succ, Finset.sum_range_zero]; norm_num) (by simp only [Finset.sum_range_succ, Finset.sum_range_zero]; norm_num)
    have hL1 : (3.3925496 : ℝ) ≤ Real.log (rho2 (1.45 + t)) :=
      le_trans hlga.1 (Real.log_le_log (by norm_num) hr2a)
    have hL2 : Real.log (rho2 (1.45 + t)) ≤ (3.39733812 : ℝ) :=
      le_trans (Real.log_le_log (rho2_pos _) hr2b) hlgb.2
    have hc1 : (4.550964 : ℝ) ≤ 2 * Real.sqrt (rho1 (1.45 + t)) := by linarith only [hs1.1]
    have hc2 : 2 * Real.sqrt (rho1 (1.45 + t)) ≤ (4.551708 : ℝ) := by linarith only [hs1.2]
    have hw1 : (4.077302 : ℝ) ≤ 2 * (1.45 + t) + 1 := by linarith only [hx1]
    have hw2 : 2 * (1.45 + t) + 1 ≤ (4.077554 : ℝ) := by linarith only [hx2]
    have hPP := mul_interval_bounds (2 * Real.sqrt (rho1 (1.45 + t))) (2 * (1.45 + t) + 1)
      (4.550964) (4.551708) (4.077302) (4.077554)
      (by norm_num) (by norm_num) hc1 hc2 hw1 hw2
    have hD1 : (19.555654 : ℝ) ≤ 2 * Real.sqrt (rho1 (1.45 + t)) * (2 * (1.45 + t) + 1) + 1 := by linarith only [hPP.1]
    have hD2 : 2 * Real.sqrt (rho1 (1.45 + t)) * (2 * (1.45 + t) + 1) + 1 ≤ (19.559836 : ℝ) := by linarith only [hPP.2]
    have hDEb := de_form_bounds (Real.log (rho2 (1.45 + t))) (Real.sqrt (rho2 (1.45 + t)))
      (2 * Real.sqrt (rho1 (1.45 + t)) * (2 * (1.45 + t) + 1) + 1)
      (3.3925496) (3.39733812) (5.459323) (5.46093) (19.555654) (19.559836) (0.236722) (0.237178)
      hL1 hL2 hs2.1 hs2.2 hD1 hD2 (by norm_num) (by norm_num) (by norm_num) (by norm_num) (by norm_num)
    have hd1 : (0.106524 : ℝ) ≤ DE ⟨1.45 + t, 0, 0⟩ 0 qC0 * 0.45 := by rw [hDE]; linarith only [hDEb.1]
    have hd2 : DE ⟨1.45 + t, 0, 0⟩ 0 qC0 * 0.45 ≤ (0.106731 : ℝ) := by rw [hDE]; linarith only [hDEb.2]
    rw [(by norm_num : (511 : ℕ) = 510 + 1), rayMarchLoop_succ, axis_point t,
      if_neg (not_lt.mpr (by linarith only [hd1] : (0.0001 : ℝ) ≤ DE ⟨1.45 + t, 0, 0⟩ 0 qC0 * 0.45)),
      if_neg (not_lt.mpr h40)]
    exact c4_step2 (t + DE ⟨1.45 + t, 0, 0⟩ 0 qC0 * 0.45)
      (min minD (DE ⟨1.45 + t, 0, 0⟩ 0 qC0 * 0.45))
      (lt_of_le_of_lt (min_le_left _ _) hm) (by linarith only [ht1, hd1]) (by linarith only [ht2, hd2])

theorem c4_step0 : 40 < rayMarchLoop 0 qC0 ro0 rd0 512 0 40 := by
  have hx1 : (1.45 : ℝ) ≤ 1.45 + 0 := by norm_num
  have hx2 : 1.45 + 0 ≤ (1.45 : ℝ) := by norm_num
  have hxx := sq_bounds (1.45 + 0) (1.45) (1.45) (by norm_num) hx1 hx2
  have hA1 : (1.9025 : ℝ) ≤ (1.45 + 0) * (1.45 + 0) - 0.2 := by linarith only [hxx.1]
  have hA2 : (1.45 + 0) * (1.45 + 0) - 0.2 ≤ (1.9025 : ℝ) := by linarith only [hxx.2]
  have hAA := sq_bounds ((1.45 + 0) * (1.45 + 0) - 0.2) (1.9025) (1.9025) (by norm_num) hA1 hA2
  have hr1a : (4.099506 : ℝ) ≤ rho1 (1.45 + 0) := by rw [rho1]; linarith only [hAA.1]
  have hr1b : rho1 (1.45 + 0) ≤ (4.099507 : ℝ) := by rw [rho1]; linarith only [hAA.2]
  have hs1 := sqrt_approx (rho1 (1.45 + 0)) (2.024723) (2.024724) (by norm_num) (by norm_num) (by linarith only [hr1a]) (by linarith only [hr1b])
  have hu1 : (2.939506 : ℝ) ≤ ((1.45 + 0) * (1.45 + 0) - 0.2) * ((1.45 + 0) * (1.45 + 0) - 0.2) - 0.68 := by linarith only [hAA.1]
  have hu2 : ((1.45 + 0) * (1.45 + 0) - 0.2) * ((1.45 + 0) * (1.45 + 0) - 0.2) - 0.68 ≤ (2.939507 : ℝ) := by linarith only [hAA.2]
  have huu := sq_bounds (((1.45 + 0) * (1.45 + 0) - 0.2) * ((1.45 + 0) * (1.45 + 0) - 0.2) - 0.68) (2.939506) (2.939507) (by norm_num) hu1 hu2
  have hv1 : (1.922 : ℝ) ≤ 0.8 * ((1.45 + 0) * (1.45 + 0) - 0.2) + 0.4 := by linarith only [hA1]
  have hv2 : 0.8 * ((1.45 + 0) * (1.45 + 0) - 0.2) + 0.4 ≤ (1.922 : ℝ) := by linarith only [hA2]
  have hvv := sq_bounds (0.8 * ((1.45 + 0) * (1.45 + 0) - 0.2) + 0.4) (1.922) (1.922) (by norm_num) hv1 hv2
  have hr2a : (19.722947 : ℝ) ≤ rho2 (1.45 + 0) := by rw [rho2]; linarith only [huu.1, hvv.1]
  have hr2b : rho2 (1.45 + 0) ≤ (19.722954 : ℝ) := by rw [rho2]; linarith only [huu.2, hvv.2]
  have hDE : DE ⟨1.45 + 0, 0, 0⟩ 0 qC0 =
      0.25 * Real.log (rho2 (1.45 + 0)) * Real.sqrt (rho2 (1.45 + 0)) /
        (2 * Real.sqrt (rho1 (1.45 + 0)) * (2 * (1.45 + 0) + 1) + 1) :=
    DE_axis_zone2 (1.45 + 0) (by linarith only [hx1]) (by linarith only [hx2]) (by linarith only [hr1b]) (by linarith only [hr2a])
  have hs2 := sqrt_approx (rho2 (1.45 + 0)) (4.441052) (4.441054) (by norm_num) (by norm_num) (by linarith only [hr2a]) (by linarith only [hr2b])
  have hlga := log_approx (19.722947 : ℝ) (2.97970484) (2.98390485) 4 (-0.2326841875 : ℝ) (by norm_num) (by rw [abs_le]; norm_num) (by simp only [Finset.sum_range_succ, Finset.sum_range_zero]; norm_num) (by simp only [Finset.sum_range_succ, Finset.sum_range_zero]; norm_num)
  have hlgb := log_approx (19.722954 : ℝ) (2.9797052) (2.98390521) 4 (-0.232684625 : ℝ) (by norm_num) (by rw [abs_le]; norm_num) (by simp only [Finset.sum_range_succ, Finset.sum_range_zero]; norm_num) (by simp only [Finset.sum_range_succ, Finset.sum_range_zero]; norm_num)
  have hL1 : (2.97970484 : ℝ) ≤ Real.log (rho2 (1.45 + 0)) :=
    le_trans hlga.1 (Real.log_le_log (by norm_num) hr2a)
  have hL2 : Real.log (rho2 (1.45 + 0)) ≤ (2.98390521 : ℝ) :=
    le_trans (Real.log_le_log (rho2_pos _) hr2b) hlgb.2
  have hc1 : (4.049446 : ℝ) ≤ 2 * Real.sqrt (rho1 (1.45 + 0)) := by linarith only [hs1.1]
  have hc2 : 2 * Real.sqrt (rho1 (1.45 + 0)) ≤ (4.049448 : ℝ) := by linarith only [hs1.2]
  have hw1 : (3.9 : ℝ) ≤ 2 * (1.45 + 0) + 1 := by linarith only [hx1]
  have hw2 : 2 * (1.45 + 0) + 1 ≤ (3.9 : ℝ) := by linarith only [hx2]
  have hPP := mul_interval_bounds (2 * Real.sqrt (rho1 (1.45 + 0))) (2 * (1.45 + 0) + 1)
    (4.049446) (4.049448) (3.9) (3.9)
    (by norm_num) (by norm_num) hc1 hc2 hw1 hw2
  have hD1 : (16.792839 : ℝ) ≤ 2 * Real.sqrt (rho1 (1.45 + 0)) * (2 * (1.45 + 0) + 1) + 1 := by linarith only [hPP.1]
  have hD2 : 2 * Real.sqrt (rho1 (1.45 + 0)) * (2 * (1.45 + 0) + 1) + 1 ≤ (16.792848 : ℝ) := by linarith only [hPP.2]
  have hDEb := de_form_bounds (Real.log (rho2 (1.45 + 0))) (Real.sqrt (rho2 (1.45 + 0)))
    (2 * Real.sqrt (rho1 (1.45 + 0)) * (2 * (1.45 + 0) + 1) + 1)
    (2.97970484) (2.98390521) (4.441052) (4.441054) (16.792839) (16.792848) (0.197003) (0.197282)
    hL1 hL2 hs2.1 hs2.2 hD1 hD2 (by norm_num) (by norm_num) (by norm_num) (by norm_num) (by norm_num)
  have hd1 : (0.088651 : ℝ) ≤ DE ⟨1.45 + 0, 0, 0⟩ 0 qC0 * 0.45 := by rw [hDE]; linarith only [hDEb.1]
  have hd2 : DE ⟨1.45 + 0, 0, 0⟩ 0 qC0 * 0.45 ≤ (0.088777 : ℝ) := by rw [hDE]; linarith only [hDEb.2]
  rw [(by norm_num : (512 : ℕ) = 511 + 1), rayMarchLoop_succ, axis_point 0,
    if_neg (not_lt.mpr (by linarith only [hd1] : (0.0001 : ℝ) ≤ DE ⟨1.45 + 0, 0, 0⟩ 0 qC0 * 0.45)),
    if_neg (by norm_num : ¬((40 : ℝ) < 0))]
  exact c4_step1 (0 + DE ⟨1.45 + 0, 0, 0⟩ 0 qC0 * 0.45)
    (min 40 (DE ⟨1.45 + 0, 0, 0⟩ 0 qC0 * 0.45))
    (lt_of_le_of_lt (min_le_right _ _) (by linarith only [hd2])) (by linarith only [hd1]) (by linarith only [hd2])

/-- C4 counterexample: for the ray starting at `(1.45, 0, 0)` with direction
`(1, 0, 0)` at `time = 0` and the program constant `(-0.2, 0.4, -0.4, -0.4)`,
the marcher returns a travel distance strictly greater than the maximum
distance 40, so the returned distance is neither a hit distance below 40 nor
the sentinel 40. -/
theorem rayMarch_exceeds_maxDist :
    40 < rayMarch ⟨1.45, 0, 0⟩ ⟨1, 0, 0⟩ 0 ⟨-0.2, 0.4, -0.4, -0.4⟩ ∧
    ¬(rayMarch ⟨1.45, 0, 0⟩ ⟨1, 0, 0⟩ 0 ⟨-0.2, 0.4, -0.4, -0.4⟩ < 40 ∨
      rayMarch ⟨1.45, 0, 0⟩ ⟨1, 0, 0⟩ 0 ⟨-0.2, 0.4, -0.4, -0.4⟩ = 40) := by
  have h : 40 < rayMarch ro0 rd0 0 qC0 := c4_step0
  have h2 : 40 < rayMarch ⟨1.45, 0, 0⟩ ⟨1, 0, 0⟩ 0 ⟨-0.2, 0.4, -0.4, -0.4⟩ := h
  refine ⟨h2, ?_⟩
  rintro (hc | hc) <;> linarith

end




